import Mathlib

/-!
Verification of the UNS payload-processor core (RadicalRumin/UNS-POC).

The development shallowly embeds the three payload-processor modules:
`EnterpriseStructureDiscovery.js`, `FlexibleTransformer.js` and
`FlexibleTopicGenerator.js`.  JavaScript objects become Lean structures,
`undefined`/`null` fields become `Option`, JS numbers become `ℚ`
(IEEE rounding is not modelled; all arithmetic in the claims is exact),
and JS `Map`s become association lists.  JS truthiness is modelled
explicitly: the empty string and the number `0` are falsy.
-/

namespace UNS

/-! ## Enterprise structure discovery (`EnterpriseStructureDiscovery.js`)

The registry state is `enterpriseMap : Map equipmentId -> structure`,
modelled as an association list with most-recent insertion first. -/

/-- JS `String.prototype.toLowerCase` (ASCII-relevant part). -/
def lowerStr (s : String) : String := ⟨s.data.map Char.toLower⟩

/-- Substring occurrence test on character lists. -/
def isInfixL (pat : List Char) : List Char → Bool
  | [] => pat.isEmpty
  | c :: rest => pat.isPrefixOf (c :: rest) || isInfixL pat rest

/-- JS `String.prototype.includes`: substring containment. -/
def containsSub (s sub : String) : Bool := isInfixL sub.data s.data

/-- A registry entry / resolved hierarchy value.  Location fields come from
the announcement's `structureInfo.location` (all optional under the Joi
schema); `lastUpdated` (a wall-clock `Date`) is not modelled. -/
structure HStructure where
  enterprise : Option String
  site : Option String
  area : Option String
  workUnit : Option String
  line : Option String
  equipmentType : Option String
  capabilities : Option (List String)
  dataTypes : Option (List String)
  tags : Option (List (String × String))
  source : String
  isFallback : Bool
deriving Repr, DecidableEq

/-- The `area` guess of `getFallbackStructure`: the field starts as
`'GENERAL'` and the if/else-if chain overwrites it on the first matching
case-insensitive substring of the equipment id. -/
def guessArea (equipmentId : String) : String :=
  if containsSub (lowerStr equipmentId) "prod" then "PRODUCTION"
  else if containsSub (lowerStr equipmentId) "pack" then "PACKAGING"
  else if containsSub (lowerStr equipmentId) "quality" ||
          containsSub (lowerStr equipmentId) "qc" then "QUALITY_CONTROL"
  else "GENERAL"

/-- `getFallbackStructure(equipmentId)`:  the synthesized non-authoritative
path.  The JS object literal has no `capabilities`/`dataTypes`/`tags`/`line`
keys, hence `none` here. -/
def getFallbackStructure (equipmentId : String) : HStructure :=
  { enterprise := some "UnknownEnterprise"
    site := some "UnknownSite"
    area := some (guessArea equipmentId)
    workUnit := some equipmentId
    line := none
    equipmentType := some "UNKNOWN"
    capabilities := none
    dataTypes := none
    tags := none
    source := "fallback"
    isFallback := true }

/-- `structureInfo.location` of a metadata announcement (Joi: all five
fields optional strings, no other keys allowed). -/
structure LocationInfo where
  enterprise : Option String
  site : Option String
  area : Option String
  workUnit : Option String
  line : Option String
deriving Repr, DecidableEq

/-- `structureInfo` of a metadata announcement (Joi: `equipmentId` and
`location` required). -/
structure StructureInfo where
  equipmentId : String
  equipmentType : Option String
  location : LocationInfo
  capabilities : Option (List String)
  dataTypes : Option (List String)
  tags : Option (List (String × String))
deriving Repr, DecidableEq

/-- A schema-valid metadata announcement (`publisherId`, `timestamp` and
`structureInfo` required; relationships are not used by the registry map). -/
structure Metadata where
  publisherId : String
  timestamp : String
  structureInfo : StructureInfo
deriving Repr, DecidableEq

/-- The record built by `updateEnterpriseStructure` from a validated
announcement: the spread of `location` plus the listed extra fields.  No
`isFallback` key is ever set, so the stored flag is `false`. -/
def structureOfMetadata (m : Metadata) : HStructure :=
  { enterprise := m.structureInfo.location.enterprise
    site := m.structureInfo.location.site
    area := m.structureInfo.location.area
    workUnit := m.structureInfo.location.workUnit
    line := m.structureInfo.location.line
    equipmentType := m.structureInfo.equipmentType
    capabilities := some (m.structureInfo.capabilities.getD [])
    dataTypes := some (m.structureInfo.dataTypes.getD [])
    tags := some (m.structureInfo.tags.getD [])
    source := m.publisherId
    isFallback := false }

/-- The `enterpriseMap`. -/
abbrev Registry := List (String × HStructure)

/-- JS `Map.prototype.set`: insert-or-overwrite. -/
def registrySet (reg : Registry) (id : String) (s : HStructure) : Registry :=
  (id, s) :: List.filter (fun p => p.1 ≠ id) reg

/-- `updateEnterpriseStructure(metadata)` keyed by
`structureInfo.equipmentId`. -/
def updateEnterpriseStructure (reg : Registry) (m : Metadata) : Registry :=
  registrySet reg m.structureInfo.equipmentId (structureOfMetadata m)

/-- `getEnterpriseStructure(equipmentId)`: map hit, else the adaptive
fallback, else `null`. -/
def getEnterpriseStructure (reg : Registry) (fallbackMode : String)
    (equipmentId : String) : Option HStructure :=
  match reg.lookup equipmentId with
  | some s => some s
  | none =>
    if fallbackMode = "adaptive" then some (getFallbackStructure equipmentId)
    else none

/-- The three ways the promise returned by `requestMetadata` can resolve:
an already-registered non-fallback entry, a `structureDiscovered` event
arriving before the timer (which resolves with the event's
`structureInfo.location`), or the timer firing and resolving the fallback. -/
inductive ResolveResult where
  | existing (s : HStructure)
  | event (loc : LocationInfo)
  | timedOut (s : HStructure)
deriving Repr, DecidableEq

/-- `requestMetadata(equipmentId, timeout)`.  `arrival` is the first
metadata announcement (if any) whose `structureDiscovered` event fires
before the timer; `none` means the timeout wins the race. -/
def requestMetadata (reg : Registry) (fallbackMode : String)
    (equipmentId : String) (arrival : Option Metadata) : ResolveResult :=
  let existing := getEnterpriseStructure reg fallbackMode equipmentId
  match existing with
  | some s =>
    if s.isFallback = false then ResolveResult.existing s
    else
      match arrival with
      | some md =>
        if md.structureInfo.equipmentId = equipmentId then
          ResolveResult.event md.structureInfo.location
        else ResolveResult.timedOut (getFallbackStructure equipmentId)
      | none => ResolveResult.timedOut (getFallbackStructure equipmentId)
  | none =>
    match arrival with
    | some md =>
      if md.structureInfo.equipmentId = equipmentId then
        ResolveResult.event md.structureInfo.location
      else ResolveResult.timedOut (getFallbackStructure equipmentId)
    | none => ResolveResult.timedOut (getFallbackStructure equipmentId)

/-- The registry-mutating history: validated announcements
(`handleMetadataMessage` → `updateEnterpriseStructure`) and resolve calls
that end in a fallback.  `requestMetadata` contains no write to
`enterpriseMap`, so a fallback-producing resolve leaves the registry
unchanged. -/
inductive DiscoveryEvent where
  | announce (md : Metadata)
  | resolveFallback (id : String)
deriving Repr, DecidableEq

def discoveryStep (reg : Registry) (e : DiscoveryEvent) : Registry :=
  match e with
  | .announce md => updateEnterpriseStructure reg md
  | .resolveFallback _ => reg

def runDiscovery (evs : List DiscoveryEvent) : Registry :=
  evs.foldl discoveryStep []

/-! ### Registry lemmas -/

theorem mem_registrySet {reg : Registry} {id : String} {s : HStructure} {p}
    (hp : p ∈ registrySet reg id s) : p = (id, s) ∨ p ∈ reg := by
  rcases List.mem_cons.mp hp with h | h
  · exact Or.inl h
  · exact Or.inr (List.mem_filter.mp h).1

theorem runDiscovery_no_fallback_aux (evs : List DiscoveryEvent) (reg : Registry)
    (h : ∀ p ∈ reg, p.2.isFallback = false) :
    ∀ p ∈ evs.foldl discoveryStep reg, p.2.isFallback = false := by
  induction evs generalizing reg with
  | nil => simpa using h
  | cons e evs ih =>
    intro p hp
    rw [List.foldl_cons] at hp
    refine ih _ ?_ p hp
    intro q hq
    cases e with
    | announce md =>
      simp only [discoveryStep, updateEnterpriseStructure] at hq
      rcases mem_registrySet hq with h1 | h1
      · subst h1; rfl
      · exact h q h1
    | resolveFallback _ => exact h q hq

theorem foldl_resolveFallback (reg : Registry) (ids : List String) :
    (ids.map DiscoveryEvent.resolveFallback).foldl discoveryStep reg = reg := by
  induction ids generalizing reg with
  | nil => rfl
  | cons i ids ih => simpa [discoveryStep] using ih reg

theorem lookup_mem {α : Type} {reg : List (String × α)} {id : String} {s : α}
    (h : reg.lookup id = some s) : (id, s) ∈ reg := by
  induction reg with
  | nil => simp [List.lookup] at h
  | cons p reg ih =>
    obtain ⟨k, v⟩ := p
    rw [List.lookup_cons] at h
    by_cases hid : (id == k) = true
    · simp only [hid, if_true] at h
      obtain rfl := of_decide_eq_true hid
      obtain rfl : v = s := by simpa using h
      exact List.mem_cons_self _ _
    · simp only [hid, if_false] at h
      exact List.mem_cons_of_mem _ (ih h)

/-! ### Claims C1 and C2 -/

/-- C1: for an equipment id that has never been announced (no registry
entry), `requestMetadata` after the discovery timeout resolves a fallback
path with `isFallback = true`, `workUnit` equal to the equipment id,
enterprise `UnknownEnterprise`, site `UnknownSite`, and `area` derived
only from the case-insensitive substring rules on the equipment id
(`prod` → PRODUCTION, `pack` → PACKAGING, `qc`/`quality` →
QUALITY_CONTROL, anything else → GENERAL). -/
theorem requestMetadata_unannounced_timeout_fallback
    (reg : Registry) (mode : String) (id : String)
    (hnone : reg.lookup id = none) :
    requestMetadata reg mode id none = .timedOut (getFallbackStructure id) ∧
    (getFallbackStructure id).isFallback = true ∧
    (getFallbackStructure id).workUnit = some id ∧
    (getFallbackStructure id).enterprise = some "UnknownEnterprise" ∧
    (getFallbackStructure id).site = some "UnknownSite" ∧
    (getFallbackStructure id).area = some
      (if containsSub (lowerStr id) "prod" then "PRODUCTION"
       else if containsSub (lowerStr id) "pack" then "PACKAGING"
       else if containsSub (lowerStr id) "qc" ||
               containsSub (lowerStr id) "quality" then "QUALITY_CONTROL"
       else "GENERAL") := by
  refine ⟨?_, rfl, rfl, rfl, rfl, ?_⟩
  · unfold requestMetadata getEnterpriseStructure
    rw [hnone]
    by_cases h : mode = "adaptive" <;> simp [h, getFallbackStructure]
  · show some (guessArea id) = some _
    unfold guessArea
    cases hq : containsSub (lowerStr id) "quality" <;>
      cases hc : containsSub (lowerStr id) "qc" <;> simp [hq, hc]

theorem requestMetadata_unannounced_timeout_fallback_witness :
    ([] : Registry).lookup "QC_STATION_01" = none ∧
    requestMetadata [] "adaptive" "QC_STATION_01" none =
      .timedOut (getFallbackStructure "QC_STATION_01") := by
  exact ⟨rfl,
    (requestMetadata_unannounced_timeout_fallback [] "adaptive" "QC_STATION_01" rfl).1⟩

/-- C2: a fallback-producing resolve call never writes to the registry
map; an entry registered from an announcement survives any sequence of
later fallback-producing resolve calls, `getEnterpriseStructure` then
still returns it, and no registry entry ever has `isFallback = true`. -/
theorem registry_fallback_free_and_authoritative
    (evs : List DiscoveryEvent) (mode : String) :
    (∀ p ∈ runDiscovery evs, p.2.isFallback = false) ∧
    (∀ id, discoveryStep (runDiscovery evs) (.resolveFallback id) = runDiscovery evs) ∧
    (∀ id s, (runDiscovery evs).lookup id = some s →
      ∀ ids : List String,
        ((ids.map DiscoveryEvent.resolveFallback).foldl discoveryStep
            (runDiscovery evs)).lookup id = some s ∧
        getEnterpriseStructure
          ((ids.map DiscoveryEvent.resolveFallback).foldl discoveryStep
            (runDiscovery evs)) mode id = some s ∧
        s.isFallback = false) := by
  refine ⟨runDiscovery_no_fallback_aux evs [] (by simp), fun _ => rfl, ?_⟩
  intro id s hs ids
  rw [foldl_resolveFallback]
  refine ⟨hs, ?_, ?_⟩
  · unfold getEnterpriseStructure
    rw [hs]
  · exact runDiscovery_no_fallback_aux evs [] (by simp) (id, s) (lookup_mem hs)

/-- A concrete announcement used by witnesses. -/
def mdW : Metadata :=
  { publisherId := "plc1"
    timestamp := "2025-01-01T00:00:00Z"
    structureInfo :=
      { equipmentId := "LINE1_STATION3_PLC"
        equipmentType := some "PRODUCTION_LINE"
        location :=
          { enterprise := some "ACME_Manufacturing"
            site := some "Detroit_Plant_01"
            area := some "PRODUCTION"
            workUnit := some "Assembly_Line_1"
            line := none }
        capabilities := none
        dataTypes := none
        tags := none } }

theorem registry_fallback_free_and_authoritative_witness :
    (runDiscovery [.announce mdW]).lookup "LINE1_STATION3_PLC"
        = some (structureOfMetadata mdW) ∧
    ((["X"].map DiscoveryEvent.resolveFallback).foldl discoveryStep
        (runDiscovery [.announce mdW])).lookup "LINE1_STATION3_PLC"
      = some (structureOfMetadata mdW) ∧
    (structureOfMetadata mdW).isFallback = false := by
  have h : (runDiscovery [DiscoveryEvent.announce mdW]).lookup "LINE1_STATION3_PLC"
      = some (structureOfMetadata mdW) := by rfl
  have h2 := (registry_fallback_free_and_authoritative [.announce mdW] "adaptive").2.2
    _ _ h ["X"]
  exact ⟨h, h2.1, h2.2.2⟩

/-! ## ISA-95 Part 2 transformer (`FlexibleTransformer.js`,
`createISA95Part2Transformer`)

JS numbers are modelled as `ℚ`; `undefined`/`null` as `none`.  The JS
`||` default on numbers treats `0` as falsy, which `numOr` reproduces. -/

/-- JS `x || d` on an optional number (`undefined`, `null`, `0` falsy). -/
def numOr (x : Option ℚ) (d : ℚ) : ℚ :=
  match x with
  | some v => if v = 0 then d else v
  | none => d

/-- JS falsiness of an optional number. -/
def numFalsy (x : Option ℚ) : Bool :=
  match x with
  | some v => v == 0
  | none => true

/-- JS truthiness of an optional string (`undefined`, `null`, `""` falsy). -/
def strTruthy (x : Option String) : Bool :=
  match x with
  | some s => s != ""
  | none => false

/-- JS `x || d` on an optional string. -/
def strOr (x : Option String) (d : String) : String :=
  match x with
  | some s => if s = "" then d else s
  | none => d

/-- `rawData.quality` (`good_parts`, `bad_parts`, `reject_rate`). -/
structure QualityCounts where
  good_parts : Option ℚ
  bad_parts : Option ℚ
  reject_rate : Option ℚ
deriving Repr, DecidableEq

/-- `rawData.status`. -/
structure EquipStatus where
  state : Option String
  efficiency : Option ℚ
  cycle_count : Option ℚ
  runtime_hours : Option ℚ
  last_maintenance_hours : Option ℚ
  error_code : Option String
deriving Repr, DecidableEq

/-- `rawData.sensors`: a JSON object of readings.  The transformer only
ever uses entries of numeric type (`typeof v === 'number'`), so the map
is modelled with numeric values. -/
abbrev Sensors := List (String × ℚ)

/-- One inbound raw observation. -/
structure RawData where
  timestamp : String
  machineId : String
  machineType : Option String
  machineModel : Option String
  sensors : Option Sensors
  status : Option EquipStatus
  quality : Option QualityCounts
deriving Repr, DecidableEq

/-- `transformer.calculateAvailability(status)`: `!status` returns 0,
then a switch on `status.state` (strict string equality). -/
def calculateAvailability (status : Option EquipStatus) : ℚ :=
  match status with
  | none => 0
  | some st =>
    if st.state = some "RUNNING" then 100
    else if st.state = some "IDLE" then 75
    else if st.state = some "ERROR" then 0
    else if st.state = some "MAINTENANCE" then 0
    else 50

/-- `transformer.calculateQualityRate(quality)`: returns 100 when
`quality`, `quality.good_parts` or `quality.bad_parts` is falsy, else
`good/(good+bad)*100` guarded by `total > 0`. -/
def calculateQualityRate (quality : Option QualityCounts) : ℚ :=
  match quality with
  | none => 100
  | some q =>
    if numFalsy q.good_parts || numFalsy q.bad_parts then 100
    else
      let total := q.good_parts.getD 0 + q.bad_parts.getD 0
      if 0 < total then q.good_parts.getD 0 / total * 100 else 100

/-- `transformer.calculateOEE(rawData)`. -/
def calculateOEE (raw : RawData) : ℚ :=
  let availability := calculateAvailability raw.status
  let performance := numOr (raw.status.bind EquipStatus.efficiency) 100
  let quality := calculateQualityRate raw.quality
  availability * performance * quality / 10000

/-- `transformer.determineDataType(rawData)`: first-match if/else chain. -/
def determineDataType (raw : RawData) : String :=
  if raw.quality.isSome then "quality"
  else if raw.status.bind EquipStatus.state = some "MAINTENANCE" ||
          strTruthy (raw.status.bind EquipStatus.error_code) then "maintenance"
  else if raw.sensors.isSome then "process"
  else "equipment"

/-- Output of `transformer.transformEnergyMetrics`. -/
structure EnergyMetrics where
  powerConsumption : ℚ
  energyTotal : ℚ
  efficiency : ℚ
deriving Repr, DecidableEq

/-- `transformer.transformEnergyMetrics(sensors)`: `null` unless the
sensor map has a numeric `power_consumption`; `energyTotal` multiplies by
the sensor map's own `runtime_hours` entry with JS `|| 1` default. -/
def transformEnergyMetrics (sensors : Option Sensors) : Option EnergyMetrics :=
  match sensors with
  | none => none
  | some s =>
    match s.lookup "power_consumption" with
    | none => none
    | some pc =>
      some { powerConsumption := pc
             energyTotal := pc * numOr (s.lookup "runtime_hours") 1
             efficiency := 85 }

/-! ### Claim C5 -/

theorem oee_bound {a p q : ℚ} (ha0 : 0 ≤ a) (ha : a ≤ 100) (hp0 : 0 ≤ p)
    (hp : p ≤ 100) (hq0 : 0 ≤ q) (hq : q ≤ 100) :
    0 ≤ a * p * q / 10000 ∧ a * p * q / 10000 ≤ 100 := by
  constructor
  · exact div_nonneg (mul_nonneg (mul_nonneg ha0 hp0) hq0) (by norm_num)
  · rw [div_le_iff₀ (by norm_num : (0:ℚ) < 10000)]
    have h1 : a * p ≤ 100 * 100 := by nlinarith
    nlinarith [mul_nonneg ha0 hp0]

/-- The concrete observation of C5: RUNNING, efficiency 92, counts 950/50. -/
def rawC5 : RawData :=
  { timestamp := "2025-01-01T00:00:00Z"
    machineId := "LINE1_STATION3_PLC"
    machineType := some "PRODUCTION_LINE"
    machineModel := none
    sensors := none
    status := some
      { state := some "RUNNING", efficiency := some 92, cycle_count := some 1234,
        runtime_hours := none, last_maintenance_hours := none, error_code := none }
    quality := some { good_parts := some 950, bad_parts := some 50, reject_rate := none } }

/-- C5: the Part 2 OEE equals availability·performance·qualityRate/10000,
stays in [0,100] whenever the three factors are in [0,100], and for a
RUNNING observation with efficiency 92 and quality counts 950/50
(quality rate 95) it is exactly 87.4. -/
theorem calculateOEE_formula_bounds_and_case :
    (∀ raw : RawData,
      calculateOEE raw =
        calculateAvailability raw.status *
          numOr (raw.status.bind EquipStatus.efficiency) 100 *
          calculateQualityRate raw.quality / 10000) ∧
    (∀ raw : RawData,
      0 ≤ calculateAvailability raw.status →
      calculateAvailability raw.status ≤ 100 →
      0 ≤ numOr (raw.status.bind EquipStatus.efficiency) 100 →
      numOr (raw.status.bind EquipStatus.efficiency) 100 ≤ 100 →
      0 ≤ calculateQualityRate raw.quality →
      calculateQualityRate raw.quality ≤ 100 →
      0 ≤ calculateOEE raw ∧ calculateOEE raw ≤ 100) ∧
    calculateAvailability rawC5.status = 100 ∧
    calculateQualityRate rawC5.quality = 95 ∧
    calculateOEE rawC5 = 874 / 10 := by
  refine ⟨fun raw => rfl, fun raw ha0 ha hp0 hp hq0 hq => ?_, ?_, ?_, ?_⟩
  · exact oee_bound ha0 ha hp0 hp hq0 hq
  · norm_num [calculateAvailability, rawC5]
  · norm_num [calculateQualityRate, numFalsy, rawC5]
  · norm_num [calculateOEE, calculateAvailability, calculateQualityRate,
      numOr, numFalsy, rawC5]

theorem calculateOEE_formula_bounds_and_case_witness :
    0 ≤ calculateOEE rawC5 ∧ calculateOEE rawC5 ≤ 100 := by
  refine calculateOEE_formula_bounds_and_case.2.1 rawC5 ?_ ?_ ?_ ?_ ?_ ?_ <;>
    norm_num [calculateAvailability, calculateQualityRate, numOr, numFalsy, rawC5]

/-! ### Claim C6 -/

/-- C6: dataType classification has first-match precedence: quality info
present → `quality`; else state MAINTENANCE or an error code present →
`maintenance`; else sensor readings present → `process`; else
`equipment`.  In particular quality info together with sensor readings
classifies as `quality`. -/
theorem determineDataType_precedence (raw : RawData) :
    (raw.quality.isSome = true → determineDataType raw = "quality") ∧
    (raw.quality = none →
      (raw.status.bind EquipStatus.state = some "MAINTENANCE" ∨
        strTruthy (raw.status.bind EquipStatus.error_code) = true) →
      determineDataType raw = "maintenance") ∧
    (raw.quality = none →
      raw.status.bind EquipStatus.state ≠ some "MAINTENANCE" →
      strTruthy (raw.status.bind EquipStatus.error_code) = false →
      raw.sensors.isSome = true →
      determineDataType raw = "process") ∧
    (raw.quality = none →
      raw.status.bind EquipStatus.state ≠ some "MAINTENANCE" →
      strTruthy (raw.status.bind EquipStatus.error_code) = false →
      raw.sensors = none →
      determineDataType raw = "equipment") ∧
    (raw.quality.isSome = true → raw.sensors.isSome = true →
      determineDataType raw = "quality") := by
  refine ⟨?_, ?_, ?_, ?_, ?_⟩
  · intro h1
    simp [determineDataType, h1]
  · intro h1 h2
    rcases h2 with h2 | h2 <;> simp [determineDataType, h1, h2]
  · intro h1 h2 h3 h4
    simp [determineDataType, h1, h2, h3, h4]
  · intro h1 h2 h3 h4
    simp [determineDataType, h1, h2, h3, h4]
  · intro h1 _
    simp [determineDataType, h1]

/-- Observation with both quality info and sensor readings populated. -/
def rawC6 : RawData :=
  { timestamp := "t", machineId := "M1", machineType := none, machineModel := none
    sensors := some [("temperature", 75)]
    status := none
    quality := some { good_parts := some 10, bad_parts := some 1, reject_rate := none } }

theorem determineDataType_precedence_witness :
    determineDataType rawC6 = "quality" :=
  (determineDataType_precedence rawC6).2.2.2.2 rfl rfl

/-! ### Claim C7 (corrected) -/

/-- C7 counterexample: with goodParts = 0 and badParts = 10 — counts
present and not both zero — the code returns 100, while the claimed
formula `good/(good+bad)·100` gives 0. -/
theorem calculateQualityRate_zero_good_counterexample :
    calculateQualityRate (some ⟨some 0, some 10, none⟩) = 100 ∧
    (0 : ℚ) / (0 + 10) * 100 = 0 ∧ (100 : ℚ) ≠ (0 : ℚ) / (0 + 10) * 100 := by
  refine ⟨by norm_num [calculateQualityRate, numFalsy], by norm_num, by norm_num⟩

/-- C7 amended: the quality rate is 100 when the quality record is
absent, or when either count is absent or zero; otherwise — both counts
nonzero (and nonnegative, as counts are) — it equals
goodParts/(goodParts+badParts)·100. -/
theorem calculateQualityRate_spec :
    (calculateQualityRate none = 100) ∧
    (∀ q : QualityCounts,
      (q.good_parts = none ∨ q.good_parts = some 0 ∨
        q.bad_parts = none ∨ q.bad_parts = some 0) →
      calculateQualityRate (some q) = 100) ∧
    (∀ q : QualityCounts, ∀ g b : ℚ,
      q.good_parts = some g → q.bad_parts = some b →
      g ≠ 0 → b ≠ 0 → 0 ≤ g → 0 ≤ b →
      calculateQualityRate (some q) = g / (g + b) * 100) := by
  refine ⟨rfl, ?_, ?_⟩
  · intro q h
    rcases h with h | h | h | h <;> simp [calculateQualityRate, numFalsy, h]
  · intro q g b hg hb hg0 hb0 hgpos hbpos
    have hgx : (0:ℚ) < g := lt_of_le_of_ne hgpos (Ne.symm hg0)
    have htot : (0:ℚ) < g + b := by positivity
    simp [calculateQualityRate, numFalsy, hg, hb, hg0, hb0, htot]

theorem calculateQualityRate_spec_witness :
    calculateQualityRate (some ⟨none, some 5, none⟩) = 100 ∧
    calculateQualityRate (some ⟨some 950, some 50, none⟩) = 950 / (950 + 50) * 100 := by
  exact ⟨calculateQualityRate_spec.2.1 _ (Or.inl rfl),
    calculateQualityRate_spec.2.2 _ 950 50 rfl rfl (by norm_num) (by norm_num)
      (by norm_num) (by norm_num)⟩

/-! ### Claim C8 (corrected) -/

/-- C8 counterexample: with status info entirely absent the Part 2
transformer computes availability 0, not the claimed 50. -/
theorem calculateAvailability_absent_counterexample :
    calculateAvailability none = 0 ∧ (0 : ℚ) ≠ 50 := ⟨rfl, by norm_num⟩

/-- C8 amended: availability is derived from the operational state when
status info is present (RUNNING→100, IDLE→75, ERROR→0, MAINTENANCE→0,
any other or missing state→50); an observation whose status info is
entirely absent gets availability 0. -/
theorem calculateAvailability_spec :
    (calculateAvailability none = 0) ∧
    (∀ st : EquipStatus, st.state = some "RUNNING" →
      calculateAvailability (some st) = 100) ∧
    (∀ st : EquipStatus, st.state = some "IDLE" →
      calculateAvailability (some st) = 75) ∧
    (∀ st : EquipStatus, st.state = some "ERROR" →
      calculateAvailability (some st) = 0) ∧
    (∀ st : EquipStatus, st.state = some "MAINTENANCE" →
      calculateAvailability (some st) = 0) ∧
    (∀ st : EquipStatus,
      st.state ≠ some "RUNNING" → st.state ≠ some "IDLE" →
      st.state ≠ some "ERROR" → st.state ≠ some "MAINTENANCE" →
      calculateAvailability (some st) = 50) := by
  refine ⟨rfl, ?_, ?_, ?_, ?_, ?_⟩
  · intro st h1
    simp [calculateAvailability, h1]
  · intro st h1
    simp [calculateAvailability, h1]
  · intro st h1
    simp [calculateAvailability, h1]
  · intro st h1
    simp [calculateAvailability, h1]
  · intro st h1 h2 h3 h4
    simp [calculateAvailability, h1, h2, h3, h4]

theorem calculateAvailability_spec_witness :
    calculateAvailability (some
      { state := some "IDLE", efficiency := none, cycle_count := none,
        runtime_hours := none, last_maintenance_hours := none, error_code := none }) = 75 ∧
    calculateAvailability (some
      { state := some "WARMUP", efficiency := none, cycle_count := none,
        runtime_hours := none, last_maintenance_hours := none, error_code := none }) = 50 := by
  constructor
  · exact calculateAvailability_spec.2.2.1 _ rfl
  · exact calculateAvailability_spec.2.2.2.2.2 _ (by decide) (by decide) (by decide) (by decide)

/-! ### Claim C9 (corrected) -/

/-- Observation with a power reading but runtime hours only in `status`. -/
def rawC9 : RawData :=
  { timestamp := "t", machineId := "M1", machineType := none, machineModel := none
    sensors := some [("power_consumption", 10)]
    status := some
      { state := some "RUNNING", efficiency := none, cycle_count := none,
        runtime_hours := some 5, last_maintenance_hours := none, error_code := none }
    quality := none }

/-- C9 counterexample: the code multiplies by the sensor map's own
`runtime_hours` entry (absent here, default 1), not by the observation's
status runtime hours (5): energyTotal comes out 10 where the claim
prescribes 50. -/
theorem transformEnergyMetrics_runtime_counterexample :
    transformEnergyMetrics rawC9.sensors =
      some { powerConsumption := 10, energyTotal := 10, efficiency := 85 } ∧
    numOr (rawC9.status.bind EquipStatus.runtime_hours) 1 = 5 ∧
    (10 : ℚ) ≠ 10 * numOr (rawC9.status.bind EquipStatus.runtime_hours) 1 := by
  refine ⟨?_, ?_, ?_⟩
  · have hl : List.lookup "power_consumption" [("power_consumption", (10:ℚ))] = some 10 := by
      simp [List.lookup]
    have hr : List.lookup "runtime_hours" [("power_consumption", (10:ℚ))] = none := by
      simp [List.lookup]
    show transformEnergyMetrics (some [("power_consumption", (10:ℚ))]) = _
    rw [transformEnergyMetrics, hl, hr]
    norm_num [numOr]
  · norm_num [rawC9, numOr]
  · norm_num [rawC9, numOr]

/-- C9 amended: energy metrics are present exactly when the sensor map
contains a (numeric) `power_consumption` reading, and then equal
{powerConsumption = the reading, energyTotal = powerConsumption times the
sensor map's `runtime_hours` entry (1 when that entry is absent or zero),
efficiency = 85}. -/
theorem transformEnergyMetrics_spec :
    (transformEnergyMetrics none = none) ∧
    (∀ s : Sensors, s.lookup "power_consumption" = none →
      transformEnergyMetrics (some s) = none) ∧
    (∀ s : Sensors, ∀ pc : ℚ, s.lookup "power_consumption" = some pc →
      transformEnergyMetrics (some s) =
        some { powerConsumption := pc,
               energyTotal := pc * numOr (s.lookup "runtime_hours") 1,
               efficiency := 85 }) := by
  refine ⟨rfl, ?_, ?_⟩
  · intro s h
    simp [transformEnergyMetrics, h]
  · intro s pc h
    simp [transformEnergyMetrics, h]

theorem transformEnergyMetrics_spec_witness :
    transformEnergyMetrics (some [("power_consumption", 45), ("runtime_hours", 8)]) =
      some { powerConsumption := 45, energyTotal := 45 * numOr (some 8) 1,
             efficiency := 85 } := by
  exact transformEnergyMetrics_spec.2.2 _ 45 rfl

/-! ### Claim C10 -/

inductive JsError where
  | referenceError (name : String)
deriving Repr, DecidableEq

/-- Identifiers in scope inside the legacy `transform` closure: the module
scope of `FlexibleTransformer.js` plus the closure's own bindings.
`createISA95LegacyTransformer` returns its object literal before the dead
`transformer.* = ...` statements, and never declares a binding named
`transformer`, so that identifier is unbound there. -/
def legacyTransformScope : List String :=
  ["fs", "path", "uuidv4", "FlexibleTransformer", "module", "require",
   "rawData", "enterpriseStructure", "context", "structure"]

/-- Evaluating an identifier: a `ReferenceError` when it is not bound. -/
def evalIdent (scope : List String) (name : String) : Except JsError Unit :=
  if name ∈ scope then .ok () else .error (.referenceError name)

/-- The `source` block of the legacy document — the part of the object
literal that is evaluated before the failing field. -/
structure LegacySource where
  area : String
  workUnit : String
  equipmentClass : Option String
  equipmentId : String
deriving Repr, DecidableEq

/-- The legacy `transform`: the object literal evaluates `messageId`,
`timestamp` and `source`, then throws while computing `equipment.status`,
because `transformer.mapEquipmentStatus` reads the unbound identifier
`transformer`.  The (unreachable) success branch would return the
document containing the evaluated `source` block. -/
def legacyTransform (raw : RawData) (es : Option HStructure) :
    Except JsError LegacySource :=
  let src : LegacySource :=
    { area := strOr (es.bind HStructure.area) "GENERAL"
      workUnit := strOr (es.bind HStructure.workUnit) raw.machineId
      equipmentClass := raw.machineType
      equipmentId := raw.machineId }
  match evalIdent legacyTransformScope "transformer" with
  | .error e => .error e
  | .ok _ => .ok src

/-- C10: for every input, the built-in `isa95-legacy` transform throws a
`ReferenceError` on the unbound identifier `transformer` (rethrown by
`FlexibleTransformer.transform`) and never returns a transformed
document. -/
theorem legacyTransform_always_errors (raw : RawData) (es : Option HStructure) :
    legacyTransform raw es = .error (.referenceError "transformer") ∧
    ∀ d, legacyTransform raw es ≠ .ok d := by
  have hmem : "transformer" ∉ legacyTransformScope := by decide
  constructor
  · simp [legacyTransform, evalIdent, hmem]
  · intro d
    simp [legacyTransform, evalIdent, hmem]

/-! ## Topic generation (`FlexibleTopicGenerator.js`)

Topics are character lists under the hood; the payload attached to each
route (the transformed document or one of its sub-objects) does not
influence the topic strings and is not modelled. -/

/-- The character class `[a-zA-Z0-9/_-]` of `validateTopicStructure`. -/
def allowedTopicChar (c : Char) : Bool :=
  ('a' ≤ c && c ≤ 'z') || ('A' ≤ c && c ≤ 'Z') || ('0' ≤ c && c ≤ '9') ||
    c == '/' || c == '_' || c == '-'

/-- A violation of `/^(?!.*\/\/).*$/`: some adjacent pair of slashes. -/
def hasDoubleSlash : List Char → Bool
  | [] => false
  | [_] => false
  | x :: y :: rest => (x == '/' && y == '/') || hasDoubleSlash (y :: rest)

/-- `/^[^/]/`: nonempty and not starting with `/`. -/
def noLeadingSlash : List Char → Bool
  | [] => false
  | c :: _ => c != '/'

/-- `/[^/]$/`: nonempty and not ending with `/`. -/
def noTrailingSlash (l : List Char) : Bool :=
  match l.getLast? with
  | none => false
  | some c => c != '/'

structure TopicValidation where
  valid : Bool
  error : Option String
deriving Repr, DecidableEq

/-- `validateTopicStructure(topic)`.  (JS `length` counts UTF-16 units
where we count characters; the two differ only on strings that already
fail the charset rule, so the `valid` bit agrees.) -/
def validateTopicStructure (topic : String) : TopicValidation :=
  if 256 < topic.data.length then ⟨false, some "Topic too long"⟩
  else if !(!topic.data.isEmpty && topic.data.all allowedTopicChar) then
    ⟨false, some "Invalid characters in topic"⟩
  else if !noLeadingSlash topic.data then ⟨false, some "Topic cannot start with /"⟩
  else if !noTrailingSlash topic.data then ⟨false, some "Topic cannot end with /"⟩
  else if hasDoubleSlash topic.data then ⟨false, some "Topic cannot contain //"⟩
  else ⟨true, none⟩

/-- JS `String.prototype.replace` with a global regex matching the
literal `pat`: replace every non-overlapping occurrence, left to right.
(The replacement values used by the generator never contain `$`, whose
special meaning in JS replacement strings is therefore not modelled.) -/
def replaceAllL (pat repl : List Char) : List Char → List Char
  | [] => []
  | c :: rest =>
    if h : pat ≠ [] ∧ pat.isPrefixOf (c :: rest) then
      repl ++ replaceAllL pat repl ((c :: rest).drop pat.length)
    else c :: replaceAllL pat repl rest
termination_by l => l.length
decreasing_by
  · simp only [List.length_drop, List.length_cons]
    have hp : 0 < pat.length := List.length_pos.mpr h.1
    omega
  · simp only [List.length_cons]
    omega

/-- JS `String.prototype.replace` with a string pattern: replace only
the first occurrence. -/
def replaceFirstL (pat repl : List Char) : List Char → List Char
  | [] => []
  | c :: rest =>
    if pat ≠ [] ∧ pat.isPrefixOf (c :: rest) then
      repl ++ (c :: rest).drop pat.length
    else c :: replaceFirstL pat repl rest

/-- `result.replace(\/\\\/+\/g, '/')`: collapse every run of slashes. -/
def collapseSlashes : List Char → List Char
  | [] => []
  | [c] => [c]
  | c :: d :: rest =>
    if c = '/' ∧ d = '/' then collapseSlashes (d :: rest)
    else c :: collapseSlashes (d :: rest)

/-- `result.replace(\/\\\/$\/, '')`: drop one trailing slash. -/
def dropTrailingSlash (l : List Char) : List Char :=
  match l.getLast? with
  | some '/' => l.dropLast
  | _ => l

/-- The fields of a transformed document that the topic generator reads;
`has…` fields are the JS truthiness of the corresponding document
sub-objects. -/
structure TopicDoc where
  equipment_id : Option String
  source_equipmentId : Option String
  hierarchy_equipment : Option String
  equipmentId : Option String
  dataType : Option String
  hasProcessParameters : Bool
  hasQualityMetrics : Bool
  hasMaintenanceInfo : Bool
  hasEnergyMetrics : Bool
deriving Repr, DecidableEq

/-- The `variables` object of `extractVariables`, fields in insertion
order. -/
structure TopicVars where
  enterprise : String
  site : String
  area : String
  workUnit : String
  line : String
  equipment : String
  equipmentId : String
  dataType : String
  region : String
  facility : String
  metric : String
deriving Repr, DecidableEq

/-- `getEquipmentId(transformedData)`: first truthy of
`equipment?.id`, `source?.equipmentId`, `hierarchy?.equipment`,
`equipmentId`, else `'unknown'`. -/
def getEquipmentId (d : TopicDoc) : String :=
  strOr d.equipment_id (strOr d.source_equipmentId (strOr d.hierarchy_equipment
    (strOr d.equipmentId "unknown")))

/-- `extractVariables(transformedData, enterpriseStructure)`. -/
def extractVariables (d : TopicDoc) (es : Option HStructure) : TopicVars :=
  let equipmentId := getEquipmentId d
  { enterprise := strOr (es.bind HStructure.enterprise) "unknown"
    site := strOr (es.bind HStructure.site) "unknown"
    area := strOr (es.bind HStructure.area) "general"
    workUnit := strOr (es.bind HStructure.workUnit) (strOr (some equipmentId) "unknown")
    line := strOr (es.bind HStructure.line) (strOr (es.bind HStructure.workUnit) "unknown")
    equipment := strOr (some equipmentId) "unknown"
    equipmentId := strOr (some equipmentId) "unknown"
    dataType := strOr d.dataType "equipment"
    region := strOr (es.bind HStructure.site) "unknown"
    facility := strOr (es.bind HStructure.area) "general"
    metric := strOr d.dataType "status" }

/-- `Object.entries(variables)` in insertion order. -/
def varAssoc (v : TopicVars) : List (String × String) :=
  [("enterprise", v.enterprise), ("site", v.site), ("area", v.area),
   ("workUnit", v.workUnit), ("line", v.line), ("equipment", v.equipment),
   ("equipmentId", v.equipmentId), ("dataType", v.dataType),
   ("region", v.region), ("facility", v.facility), ("metric", v.metric)]

/-- The `{key}` placeholder for a variable name. -/
def mkPlaceholder (k : String) : List Char := '{' :: (k.data ++ ['}'])

/-- The sequence of global replacements of `substituteVariables`, one per
entry of the variable map, in insertion order. -/
def substAll (kvs : List (String × String)) (l : List Char) : List Char :=
  kvs.foldl (fun acc kv => replaceAllL (mkPlaceholder kv.1) kv.2.data acc) l

/-- `substituteVariables(template, variables)`: replace each `{key}`
globally in insertion order, then collapse slash runs and drop a
trailing slash. -/
def substituteVariables (template : String) (v : TopicVars) : String :=
  ⟨dropTrailingSlash (collapseSlashes (substAll (varAssoc v) template.data))⟩

/-- `generateEnterpriseEquipmentTopic(equipmentId, variables)`. -/
def generateEnterpriseEquipmentTopic (equipmentId : String) (v : TopicVars) : String :=
  "uns/enterprise/" ++ strOr (some v.enterprise) "unknown" ++ "/equipment/" ++ equipmentId

/-- One `(topic, data, qos)` entry of a RouteSet (payload not modelled). -/
structure Route where
  topic : String
  qos : Nat
deriving Repr, DecidableEq

/-- `generateTopicsFromTemplate(template, transformedData,
enterpriseStructure)`. -/
def generateTopicsFromTemplate (template : String) (d : TopicDoc)
    (es : Option HStructure) : List Route :=
  let vars := extractVariables d es
  let baseTopic := substituteVariables template vars
  let dataType := strOr d.dataType "equipment"
  let typed :=
    if containsSub template "{dataType}" then
      [Route.mk (substituteVariables
          ⟨replaceFirstL (mkPlaceholder "dataType") dataType.data template.data⟩
          vars) 1]
    else
      [Route.mk (baseTopic ++ "/" ++ dataType) 1]
  let metricRoutes :=
    if dataType = "process" then
      if d.hasProcessParameters then [Route.mk (baseTopic ++ "/process/parameters") 1] else []
    else if dataType = "quality" then
      if d.hasQualityMetrics then [Route.mk (baseTopic ++ "/quality/metrics") 1] else []
    else if dataType = "maintenance" then
      if d.hasMaintenanceInfo then [Route.mk (baseTopic ++ "/maintenance/status") 1] else []
    else if dataType = "energy" then
      if d.hasEnergyMetrics then [Route.mk (baseTopic ++ "/energy/metrics") 1] else []
    else []
  let equipmentId := getEquipmentId d
  let ent :=
    if equipmentId ≠ "" then
      [Route.mk (generateEnterpriseEquipmentTopic equipmentId vars) 1]
    else []
  [Route.mk baseTopic 1] ++ typed ++ metricRoutes ++ ent

/-- `generateDefaultTopics(transformedData, enterpriseStructure)`. -/
def generateDefaultTopics (d : TopicDoc) (es : Option HStructure) : List Route :=
  let equipmentId := getEquipmentId d
  let baseTopic := "uns/" ++ strOr (es.bind HStructure.area) "general" ++ "/" ++
    strOr (es.bind HStructure.workUnit) equipmentId
  [Route.mk (baseTopic ++ "/equipment/status") 1,
   Route.mk ("uns/enterprise/equipment/" ++ equipmentId) 1]

/-- `generateTopics(formatName, transformedData, enterpriseStructure)`
with the `topicTemplates` map loaded from configuration. -/
def generateTopics (templates : List (String × String)) (formatName : String)
    (d : TopicDoc) (es : Option HStructure) : List Route :=
  match templates.lookup formatName with
  | none => generateDefaultTopics d es
  | some template => generateTopicsFromTemplate template d es

/-! ### Claim C4 (corrected) -/

theorem strOr_ne_empty {o : Option String} {d : String} (hd : d ≠ "") :
    strOr o d ≠ "" := by
  cases o with
  | none => exact hd
  | some s =>
    by_cases hs : s = ""
    · simpa [strOr, hs] using hd
    · simpa [strOr, hs] using hs

theorem strOr_some_of_ne {s : String} (hs : s ≠ "") (d : String) :
    strOr (some s) d = s := by
  simp [strOr, hs]

theorem getEquipmentId_ne_empty (d : TopicDoc) : getEquipmentId d ≠ "" :=
  strOr_ne_empty (strOr_ne_empty (strOr_ne_empty (strOr_ne_empty (by decide))))

theorem extractVariables_enterprise_ne_empty (d : TopicDoc) (es : Option HStructure) :
    (extractVariables d es).enterprise ≠ "" :=
  strOr_ne_empty (by decide)

/-- A document carrying nothing the generator can read. -/
def docEmptyC4 : TopicDoc :=
  { equipment_id := none, source_equipmentId := none, hierarchy_equipment := none,
    equipmentId := none, dataType := none, hasProcessParameters := false,
    hasQualityMetrics := false, hasMaintenanceInfo := false, hasEnergyMetrics := false }

/-- C4 counterexample: with no configured template `generateTopics` falls
back to the default pair, whose enterprise-wide topic is
`uns/enterprise/equipment/<id>` — the `<enterprise>` segment is missing —
so no route has the claimed shape
`uns/enterprise/<enterprise>/equipment/<id>`. -/
theorem generateTopics_default_no_enterprise_segment :
    generateTopics [] "isa95-part2" docEmptyC4 none =
      [Route.mk "uns/general/unknown/equipment/status" 1,
       Route.mk "uns/enterprise/equipment/unknown" 1] ∧
    (extractVariables docEmptyC4 none).enterprise = "unknown" ∧
    getEquipmentId docEmptyC4 = "unknown" ∧
    ("uns/enterprise/" ++ (extractVariables docEmptyC4 none).enterprise ++
        "/equipment/" ++ getEquipmentId docEmptyC4)
      ∉ (generateTopics [] "isa95-part2" docEmptyC4 none).map Route.topic := by
  refine ⟨by decide, by decide, by decide, by decide⟩

/-- C4 amended: when the format has a configured topic template the
RouteSet contains the enterprise-wide topic
`uns/enterprise/<enterprise>/equipment/<equipmentId>` regardless of
template; when the format has no template and falls back to default
topics, the enterprise-wide topic instead has the shape
`uns/enterprise/equipment/<equipmentId>`, without the enterprise
segment. -/
theorem generateTopics_enterprise_wide_topic
    (templates : List (String × String)) (formatName : String)
    (d : TopicDoc) (es : Option HStructure) :
    (∀ template, templates.lookup formatName = some template →
      Route.mk ("uns/enterprise/" ++ (extractVariables d es).enterprise ++
          "/equipment/" ++ getEquipmentId d) 1
        ∈ generateTopics templates formatName d es) ∧
    (templates.lookup formatName = none →
      Route.mk ("uns/enterprise/equipment/" ++ getEquipmentId d) 1
        ∈ generateTopics templates formatName d es) := by
  constructor
  · intro template h
    have hid := getEquipmentId_ne_empty d
    have hent := extractVariables_enterprise_ne_empty d es
    simp only [generateTopics, h, generateTopicsFromTemplate,
      generateEnterpriseEquipmentTopic, strOr_some_of_ne hent, if_pos hid]
    exact List.mem_append_right _ (List.mem_singleton.mpr rfl)
  · intro h
    simp only [generateTopics, h, generateDefaultTopics]
    exact List.mem_cons_of_mem _ (List.mem_singleton.mpr rfl)

/-- The hierarchy of the spec's end-to-end scenario. -/
def esT : HStructure :=
  { enterprise := some "ACME_Manufacturing", site := some "Detroit_Plant_01",
    area := some "PRODUCTION", workUnit := some "Assembly_Line_1", line := none,
    equipmentType := none, capabilities := none, dataTypes := none, tags := none,
    source := "plc1", isFallback := false }

/-- The transformed document of the spec's end-to-end scenario, as seen
by the topic generator. -/
def docT : TopicDoc :=
  { equipment_id := some "LINE1_STATION3_PLC", source_equipmentId := none,
    hierarchy_equipment := none, equipmentId := none, dataType := some "process",
    hasProcessParameters := true, hasQualityMetrics := false,
    hasMaintenanceInfo := false, hasEnergyMetrics := false }

def tmplT : String := "uns/{enterprise}/{site}/{area}/{workUnit}/{equipment}/{dataType}"

theorem generateTopics_enterprise_wide_topic_witness :
    Route.mk ("uns/enterprise/" ++ (extractVariables docT (some esT)).enterprise ++
        "/equipment/" ++ getEquipmentId docT) 1
      ∈ generateTopics [("isa95-part2", tmplT)] "isa95-part2" docT (some esT) ∧
    Route.mk ("uns/enterprise/equipment/" ++ getEquipmentId docT) 1
      ∈ generateTopics [] "isa95-part2" docT (some esT) := by
  exact ⟨(generateTopics_enterprise_wide_topic _ _ _ _).1 _ rfl,
         (generateTopics_enterprise_wide_topic _ _ _ _).2 rfl⟩

/-! ### Claim C3 (corrected)

The universally-quantified claim fails: a template with an unknown
placeholder leaves its braces in the generated topic, which then fails
the charset rule of `validateTopicStructure`.  The amended claim
restricts to templates decomposing into brace-free literal pieces and
known placeholders, with slash-free charset-clean variable values and
bounded lengths; under those hypotheses every generated topic validates.

The machinery below describes `substAll` on a template presented as a
token list. -/

/-- A topic-template token: a literal piece or a placeholder. -/
inductive TTok where
  | lit (s : String)
  | var (k : String)
deriving Repr, DecidableEq

/-- The raw characters of a token. -/
def tokChars : TTok → List Char
  | .lit s => s.data
  | .var k => mkPlaceholder k

def concatToks : List TTok → List Char
  | [] => []
  | t :: ts => tokChars t ++ concatToks ts

/-- A token after substitution of the whole variable map: a later pass
never rewrites the output of an earlier one, so an unresolved
placeholder stays as it is. -/
def resolveTok (kvs : List (String × String)) : TTok → List Char
  | .lit s => s.data
  | .var k =>
    match kvs.lookup k with
    | some v => v.data
    | none => mkPlaceholder k

def concatResolved (kvs : List (String × String)) : List TTok → List Char
  | [] => []
  | t :: ts => resolveTok kvs t ++ concatResolved kvs ts

/-- Effect of one global replacement pass on the token list. -/
def substTok (k v : String) : TTok → TTok
  | .lit s => .lit s
  | .var j => if j = k then .lit v else .var j

/-- No brace occurs in the list. -/
def braceFree (l : List Char) : Bool := l.all (fun c => c != '{' && c != '}')

/-- Token wellformedness: literal pieces and placeholder names carry no
braces. -/
def TokWF : TTok → Prop
  | .lit s => braceFree s.data = true
  | .var k => braceFree k.data = true

theorem replaceAllL_nil (pat repl : List Char) : replaceAllL pat repl [] = [] := by
  simp [replaceAllL]

theorem replaceAllL_cons_neg {pat : List Char} (repl : List Char) {c : Char}
    {rest : List Char}
    (h : ¬ (pat ≠ [] ∧ pat.isPrefixOf (c :: rest) = true)) :
    replaceAllL pat repl (c :: rest) = c :: replaceAllL pat repl rest := by
  rw [replaceAllL]
  exact dif_neg h

theorem replaceAllL_at_match {pat repl b : List Char} (hne : pat ≠ []) :
    replaceAllL pat repl (pat ++ b) = repl ++ replaceAllL pat repl b := by
  obtain ⟨c, pat', rfl⟩ : ∃ c pat', pat = c :: pat' := by
    cases pat with
    | nil => exact absurd rfl hne
    | cons c p => exact ⟨c, p, rfl⟩
  rw [List.cons_append, replaceAllL]
  rw [dif_pos ⟨hne, List.isPrefixOf_iff_prefix.mpr ⟨b, by simp⟩⟩]
  congr 1
  have hcb : c :: (pat' ++ b) = (c :: pat') ++ b := rfl
  rw [hcb, List.drop_left]

theorem replaceAllL_append_no_open {pat repl a b : List Char}
    (hpat : pat.head? = some '{') (ha : '{' ∉ a) :
    replaceAllL pat repl (a ++ b) = a ++ replaceAllL pat repl b := by
  induction a with
  | nil => simp
  | cons c a ih =>
    have hc : c ≠ '{' := fun h => ha (h ▸ List.mem_cons_self c a)
    rw [List.cons_append, replaceAllL_cons_neg]
    · rw [ih (fun h => ha (List.mem_cons_of_mem c h))]
      rfl
    · rintro ⟨hne, hpre⟩
      obtain ⟨p, pat', rfl⟩ : ∃ p pat', pat = p :: pat' := by
        cases pat with
        | nil => exact absurd rfl hne
        | cons p ps => exact ⟨p, ps, rfl⟩
      have hp : p = '{' := by simpa using hpat
      simp only [List.isPrefixOf, Bool.and_eq_true, beq_iff_eq] at hpre
      exact hc (hpre.1 ▸ hp)

/-- A placeholder for one brace-free name never matches at the start of a
different brace-free name's placeholder. -/
theorem closed_name_prefix {k j rest : List Char}
    (hk : '}' ∉ k) (hj : '}' ∉ j)
    (h : (k ++ ['}']).isPrefixOf (j ++ ['}'] ++ rest) = true) : k = j := by
  induction k generalizing j with
  | nil =>
    cases j with
    | nil => rfl
    | cons b j' =>
      exfalso
      simp only [List.nil_append, List.cons_append, List.isPrefixOf,
        Bool.and_eq_true, beq_iff_eq] at h
      exact hj (h.1 ▸ List.mem_cons_self b j')
  | cons a k' ih =>
    cases j with
    | nil =>
      exfalso
      simp only [List.cons_append, List.nil_append, List.isPrefixOf,
        Bool.and_eq_true, beq_iff_eq] at h
      exact hk (h.1.symm ▸ List.mem_cons_self a k')
    | cons b j' =>
      simp only [List.cons_append, List.isPrefixOf, Bool.and_eq_true, beq_iff_eq] at h
      obtain ⟨rfl, h2⟩ := h
      rw [ih (fun hm => hk (List.mem_cons_of_mem _ hm))
        (fun hm => hj (List.mem_cons_of_mem _ hm)) h2]

theorem braceFree_no_close {s : String} (hs : braceFree s.data = true) :
    '}' ∉ s.data := by
  intro hm
  have := List.all_eq_true.mp hs _ hm
  simp at this

theorem braceFree_no_open {s : String} (hs : braceFree s.data = true) :
    '{' ∉ s.data := by
  intro hm
  have := List.all_eq_true.mp hs _ hm
  simp at this

theorem placeholder_no_match {k j : String} (hkj : j ≠ k)
    (hk : braceFree k.data = true) (hj : braceFree j.data = true)
    (rest : List Char) :
    ¬ (mkPlaceholder k).isPrefixOf (mkPlaceholder j ++ rest) = true := by
  intro h
  simp only [mkPlaceholder, List.cons_append, List.isPrefixOf, Bool.and_eq_true,
    beq_iff_eq] at h
  have heq := closed_name_prefix (braceFree_no_close hk) (braceFree_no_close hj) h.2
  exact hkj (String.ext heq.symm)

theorem TokWF_substTok {k v : String} (hv : braceFree v.data = true) {t : TTok}
    (ht : TokWF t) : TokWF (substTok k v t) := by
  cases t with
  | lit s => exact ht
  | var j =>
    by_cases hjk : j = k
    · simpa [substTok, hjk, TokWF] using hv
    · simpa [substTok, hjk, TokWF] using ht

/-- One global replacement pass over a wellformed token list substitutes
exactly the placeholders of that key. -/
theorem replaceAll_concatToks (k v : String) (toks : List TTok)
    (hk : braceFree k.data = true) (hv : braceFree v.data = true)
    (htoks : ∀ t ∈ toks, TokWF t) :
    replaceAllL (mkPlaceholder k) v.data (concatToks toks) =
      concatToks (toks.map (substTok k v)) := by
  induction toks with
  | nil => simp [concatToks, replaceAllL_nil]
  | cons t ts ih =>
    have hts : ∀ t' ∈ ts, TokWF t' := fun t' ht' => htoks t' (List.mem_cons_of_mem _ ht')
    have iht := ih hts
    cases t with
    | lit s =>
      have hs : braceFree s.data = true := htoks (.lit s) (List.mem_cons_self _ _)
      simp only [concatToks, tokChars, List.map_cons, substTok]
      rw [replaceAllL_append_no_open (by simp [mkPlaceholder]) (braceFree_no_open hs), iht]
    | var j =>
      have hjwf : braceFree j.data = true := htoks (.var j) (List.mem_cons_self _ _)
      by_cases hjk : j = k
      · subst hjk
        simp only [concatToks, tokChars, List.map_cons, substTok, if_pos rfl]
        rw [replaceAllL_at_match (by simp [mkPlaceholder]), iht]
        simp
      · simp only [concatToks, tokChars, List.map_cons, substTok, if_neg hjk]
        have hassoc : mkPlaceholder j ++ concatToks ts =
            '{' :: ((j.data ++ ['}']) ++ concatToks ts) := by
          simp [mkPlaceholder]
        rw [hassoc, replaceAllL_cons_neg]
        · rw [replaceAllL_append_no_open (by simp [mkPlaceholder])]
          · rw [iht]
            simp [mkPlaceholder]
          · intro hm
            rcases List.mem_append.mp hm with hm | hm
            · exact braceFree_no_open hjwf hm
            · simp at hm
        · rintro ⟨-, hpre⟩
          refine placeholder_no_match hjk hk hjwf (concatToks ts) ?_
          simpa [mkPlaceholder] using hpre

theorem concatResolved_nil_kvs (toks : List TTok) :
    concatResolved [] toks = concatToks toks := by
  induction toks with
  | nil => rfl
  | cons t ts ih =>
    cases t <;> simp [concatResolved, concatToks, resolveTok, tokChars, ih, List.lookup]

theorem resolveTok_substTok (k v : String) (kvs : List (String × String)) (t : TTok) :
    resolveTok kvs (substTok k v t) = resolveTok ((k, v) :: kvs) t := by
  cases t with
  | lit s => rfl
  | var j =>
    by_cases hjk : j = k
    · subst hjk
      simp [substTok, resolveTok, List.lookup]
    · have hbeq : (j == k) = false := by
        simpa using hjk
      simp [substTok, hjk, resolveTok, List.lookup, hbeq]

theorem concatResolved_substTok (k v : String) (kvs : List (String × String))
    (toks : List TTok) :
    concatResolved kvs (toks.map (substTok k v)) = concatResolved ((k, v) :: kvs) toks := by
  induction toks with
  | nil => rfl
  | cons t ts ih =>
    simp [concatResolved, resolveTok_substTok, ih]

/-- The full substitution pass of `substituteVariables` on a wellformed
token list yields the token-wise resolution. -/
theorem substAll_concatToks (kvs : List (String × String)) (toks : List TTok)
    (hkvs : ∀ kv ∈ kvs, braceFree kv.1.data = true ∧ braceFree kv.2.data = true)
    (htoks : ∀ t ∈ toks, TokWF t) :
    substAll kvs (concatToks toks) = concatResolved kvs toks := by
  induction kvs generalizing toks with
  | nil => simpa [substAll] using (concatResolved_nil_kvs toks).symm
  | cons kv kvs ih =>
    obtain ⟨k, v⟩ := kv
    have hk := (hkvs (k, v) (List.mem_cons_self _ _)).1
    have hv := (hkvs (k, v) (List.mem_cons_self _ _)).2
    have hstep : substAll ((k, v) :: kvs) (concatToks toks) =
        substAll kvs (replaceAllL (mkPlaceholder k) v.data (concatToks toks)) := rfl
    rw [hstep, replaceAll_concatToks k v toks hk hv htoks,
      ih (toks.map (substTok k v))
        (fun kv' h' => hkvs kv' (List.mem_cons_of_mem _ h'))
        (fun t' ht' => by
          obtain ⟨t, ht, rfl⟩ := List.mem_map.mp ht'
          exact TokWF_substTok hv (htoks t ht)),
      concatResolved_substTok]

/-! Cleanup lemmas: `collapseSlashes` followed by `dropTrailingSlash`
yields a list free of `//` and of a trailing slash, preserving the head,
the character set and the length bound. -/

theorem hds_cons_false {x : Char} {l : List Char} :
    hasDoubleSlash (x :: l) = false ↔
      ¬(x = '/' ∧ l.head? = some '/') ∧ hasDoubleSlash l = false := by
  cases l with
  | nil => simp [hasDoubleSlash]
  | cons y l' =>
    simp [hasDoubleSlash, not_and, Decidable.imp_iff_not_or]

theorem hds_append_false {a b : List Char} (ha : hasDoubleSlash a = false)
    (hb : hasDoubleSlash b = false)
    (hab : ¬(a.getLast? = some '/' ∧ b.head? = some '/')) :
    hasDoubleSlash (a ++ b) = false := by
  induction a with
  | nil => simpa using hb
  | cons x a ih =>
    rw [List.cons_append]
    rcases hds_cons_false.mp ha with ⟨hx, ha'⟩
    refine hds_cons_false.mpr ⟨?_, ?_⟩
    · rintro ⟨rfl, hh⟩
      cases a with
      | nil => exact hab ⟨rfl, by simpa using hh⟩
      | cons z a' => exact hx ⟨rfl, by simpa using hh⟩
    · refine ih ha' ?_
      rintro ⟨h1, h2⟩
      cases a with
      | nil => simp at h1
      | cons z a' => exact hab ⟨by rw [List.getLast?_cons_cons]; exact h1, h2⟩

theorem hds_append_split {a b : List Char}
    (h : hasDoubleSlash (a ++ b) = false) :
    hasDoubleSlash a = false ∧ hasDoubleSlash b = false ∧
      ¬(a.getLast? = some '/' ∧ b.head? = some '/') := by
  induction a with
  | nil => exact ⟨rfl, by simpa using h, by simp⟩
  | cons x a ih =>
    rw [List.cons_append] at h
    rcases hds_cons_false.mp h with ⟨hx, h'⟩
    obtain ⟨ha, hb, hab⟩ := ih h'
    refine ⟨hds_cons_false.mpr ⟨?_, ha⟩, hb, ?_⟩
    · rintro ⟨rfl, hh⟩
      cases a with
      | nil => simp at hh
      | cons z a' => exact hx ⟨rfl, by simpa using hh⟩
    · rintro ⟨h1, h2⟩
      cases a with
      | nil =>
        simp only [List.getLast?_singleton, Option.some.injEq] at h1
        exact hx ⟨h1, by cases b with
          | nil => simp at h2
          | cons w b' => simpa using h2⟩
      | cons z a' => exact hab ⟨by rwa [List.getLast?_cons_cons] at h1, h2⟩

theorem collapseSlashes_head (l : List Char) :
    (collapseSlashes l).head? = l.head? := by
  induction l with
  | nil => rfl
  | cons c tail ih =>
    cases tail with
    | nil => rfl
    | cons d rest =>
      by_cases h : c = '/' ∧ d = '/'
      · obtain ⟨rfl, rfl⟩ := h
        rw [collapseSlashes, if_pos ⟨rfl, rfl⟩, ih]
        rfl
      · rw [collapseSlashes, if_neg h]
        rfl

theorem collapseSlashes_subset {l : List Char} : ∀ c ∈ collapseSlashes l, c ∈ l := by
  induction l with
  | nil => simp [collapseSlashes]
  | cons c tail ih =>
    cases tail with
    | nil => simp [collapseSlashes]
    | cons d rest =>
      intro x hx
      by_cases h : c = '/' ∧ d = '/'
      · obtain ⟨rfl, rfl⟩ := h
        rw [collapseSlashes, if_pos ⟨rfl, rfl⟩] at hx
        exact List.mem_cons_of_mem _ (ih x hx)
      · rw [collapseSlashes, if_neg h] at hx
        rcases List.mem_cons.mp hx with rfl | hx
        · exact List.mem_cons_self _ _
        · exact List.mem_cons_of_mem _ (ih x hx)

theorem collapseSlashes_length (l : List Char) :
    (collapseSlashes l).length ≤ l.length := by
  induction l with
  | nil => simp [collapseSlashes]
  | cons c tail ih =>
    cases tail with
    | nil => simp [collapseSlashes]
    | cons d rest =>
      by_cases h : c = '/' ∧ d = '/'
      · obtain ⟨rfl, rfl⟩ := h
        rw [collapseSlashes, if_pos ⟨rfl, rfl⟩]
        calc (collapseSlashes ('/' :: rest)).length ≤ ('/' :: rest).length := ih
          _ ≤ ('/' :: '/' :: rest).length := by simp
      · rw [collapseSlashes, if_neg h]
        simpa using ih

theorem collapseSlashes_ne_nil {l : List Char} (h : l ≠ []) :
    collapseSlashes l ≠ [] := by
  intro h0
  have := collapseSlashes_head l
  rw [h0] at this
  cases l with
  | nil => exact h rfl
  | cons c tail => simp at this

theorem collapseSlashes_no_dbl (l : List Char) :
    hasDoubleSlash (collapseSlashes l) = false := by
  induction l with
  | nil => rfl
  | cons c tail ih =>
    cases tail with
    | nil => rfl
    | cons d rest =>
      by_cases h : c = '/' ∧ d = '/'
      · obtain ⟨rfl, rfl⟩ := h
        rw [collapseSlashes, if_pos ⟨rfl, rfl⟩]
        exact ih
      · rw [collapseSlashes, if_neg h]
        refine hds_cons_false.mpr ⟨?_, ih⟩
        rintro ⟨rfl, hh⟩
        rw [collapseSlashes_head] at hh
        simp only [List.head?_cons, Option.some.injEq] at hh
        exact h ⟨rfl, hh⟩

theorem getLast?_ne_none {l : List Char} (h : l ≠ []) : l.getLast? ≠ none := by
  cases l with
  | nil => exact absurd rfl h
  | cons c tail =>
    rw [List.getLast?_eq_getLast (c :: tail) (by simp)]
    simp

theorem dropTrailingSlash_spec {l : List Char} (hne : l ≠ [])
    (hhead : l.head? ≠ some '/') (hnd : hasDoubleSlash l = false) :
    dropTrailingSlash l ≠ [] ∧
    (dropTrailingSlash l).head? = l.head? ∧
    (dropTrailingSlash l).getLast? ≠ some '/' ∧
    hasDoubleSlash (dropTrailingSlash l) = false ∧
    (dropTrailingSlash l).length ≤ l.length ∧
    (∀ c ∈ dropTrailingSlash l, c ∈ l) := by
  cases hl : l.getLast? with
  | none => exact absurd hl (getLast?_ne_none hne)
  | some c =>
    by_cases hc : c = '/'
    · subst hc
      have hdecomp : l.dropLast ++ ['/'] = l := by
        have h2 := List.dropLast_append_getLast hne
        have h3 : l.getLast hne = '/' := (List.getLast_eq_iff_getLast?_eq_some hne).mpr hl
        rwa [h3] at h2
      have hdrop : dropTrailingSlash l = l.dropLast := by
        unfold dropTrailingSlash
        rw [hl]
        rfl
      have hl'ne : l.dropLast ≠ [] := by
        intro h0
        rw [h0, List.nil_append] at hdecomp
        apply hhead
        rw [← hdecomp]
        rfl
      have hsplit := hds_append_split (a := l.dropLast) (b := ['/'])
        (by rw [hdecomp]; exact hnd)
      have hhead2 : l.dropLast.head? = l.head? := by
        conv_rhs => rw [← hdecomp]
        rw [List.head?_append_of_ne_nil _ hl'ne]
      refine ⟨by rw [hdrop]; exact hl'ne, by rw [hdrop, hhead2], ?_, ?_, ?_, ?_⟩
      · rw [hdrop]
        intro hlast
        exact hsplit.2.2 ⟨hlast, rfl⟩
      · rw [hdrop]
        exact hsplit.1
      · rw [hdrop]
        conv_rhs => rw [← hdecomp]
        simp
      · rw [hdrop]
        intro x hx
        rw [← hdecomp]
        exact List.mem_append_left _ hx
    · have hdrop : dropTrailingSlash l = l := by
        unfold dropTrailingSlash
        rw [hl]
        split
        · next heq =>
          exfalso
          apply hc
          injection heq
        · rfl
      rw [hdrop]
      exact ⟨hne, rfl, by rw [hl]; simpa using hc, hnd, le_refl _, fun c hc => hc⟩

/-- The structural validity facts of a topic fragment, closed under
joining with `/`. -/
structure PartsOK (l : List Char) : Prop where
  ne : l ≠ []
  chars : ∀ c ∈ l, allowedTopicChar c = true
  headOK : l.head? ≠ some '/'
  lastOK : l.getLast? ≠ some '/'
  nodbl : hasDoubleSlash l = false

theorem cleanup_partsOK {l : List Char} (hne : l ≠ [])
    (hhead : l.head? ≠ some '/')
    (hchars : ∀ c ∈ l, allowedTopicChar c = true) :
    PartsOK (dropTrailingSlash (collapseSlashes l)) ∧
    (dropTrailingSlash (collapseSlashes l)).length ≤ l.length := by
  have hc1 := collapseSlashes_ne_nil hne
  have hc2 : (collapseSlashes l).head? ≠ some '/' := by
    rw [collapseSlashes_head]; exact hhead
  have hc3 := collapseSlashes_no_dbl l
  obtain ⟨d1, d2, d3, d4, d5, d6⟩ := dropTrailingSlash_spec hc1 hc2 hc3
  refine ⟨⟨d1, ?_, by rw [d2]; exact hc2, d3, d4⟩, ?_⟩
  · intro c hc
    exact hchars c (collapseSlashes_subset c (d6 c hc))
  · exact le_trans d5 (collapseSlashes_length l)

theorem noLeadingSlash_of {l : List Char} (hne : l ≠ [])
    (h : l.head? ≠ some '/') : noLeadingSlash l = true := by
  cases l with
  | nil => exact absurd rfl hne
  | cons c rest => simpa [noLeadingSlash] using fun h0 => h (by simp [h0])

theorem noTrailingSlash_of {l : List Char} (hne : l ≠ [])
    (h : l.getLast? ≠ some '/') : noTrailingSlash l = true := by
  unfold noTrailingSlash
  cases hl : l.getLast? with
  | none => exact absurd hl (getLast?_ne_none hne)
  | some c =>
    rw [hl] at h
    simpa using fun h0 => h (by simp [h0])

theorem valid_of_partsOK {l : List Char} (h : PartsOK l) (hlen : l.length ≤ 256) :
    (validateTopicStructure ⟨l⟩).valid = true := by
  unfold validateTopicStructure
  rw [if_neg (by simpa using by omega)]
  rw [if_neg (by
    have hall := List.all_eq_true.mpr h.chars
    have hne : l.isEmpty = false := by simpa using h.ne
    simp [hall, hne])]
  rw [if_neg (by simp [noLeadingSlash_of h.ne h.headOK])]
  rw [if_neg (by simp [noTrailingSlash_of h.ne h.lastOK])]
  rw [if_neg (by simp [h.nodbl])]

theorem PartsOK.join {a w : List Char} (ha : PartsOK a) (hw : PartsOK w) :
    PartsOK (a ++ '/' :: w) := by
  refine ⟨by simp [ha.ne], ?_, ?_, ?_, ?_⟩
  · intro c hc
    rcases List.mem_append.mp hc with hc | hc
    · exact ha.chars c hc
    · rcases List.mem_cons.mp hc with rfl | hc
      · decide
      · exact hw.chars c hc
  · rw [List.head?_append_of_ne_nil _ ha.ne]
    exact ha.headOK
  · have hwg : ('/' :: w).getLast? = w.getLast? := by
      have h1 : ('/' :: w) = ['/'] ++ w := rfl
      rw [h1, List.getLast?_append]
      cases hwl : w.getLast? with
      | none => exact absurd hwl (getLast?_ne_none hw.ne)
      | some c => rfl
    rw [List.getLast?_append, hwg]
    cases hwl : w.getLast? with
    | none => exact absurd hwl (getLast?_ne_none hw.ne)
    | some c =>
      have := hw.lastOK
      rw [hwl] at this
      simpa [hwl] using this
  · refine hds_append_false ha.nodbl ?_ ?_
    · exact hds_cons_false.mpr ⟨fun h => hw.headOK h.2, hw.nodbl⟩
    · rintro ⟨h1, -⟩
      exact ha.lastOK h1

/-! Wellformedness of templates and values, and facts about resolved
token lists. -/

/-- The eleven placeholder names of `extractVariables`, in insertion
order. -/
def varNames : List String :=
  ["enterprise", "site", "area", "workUnit", "line", "equipment",
   "equipmentId", "dataType", "region", "facility", "metric"]

/-- A slash-free, charset-clean, nonempty value. -/
def goodVal (s : String) : Bool :=
  s != "" && s.data.all (fun c => allowedTopicChar c && c != '/')

/-- Wellformed template token: a nonempty charset-clean literal piece or
a known placeholder. -/
def TemplTokOK : TTok → Prop
  | .lit s => s ≠ "" ∧ s.data.all allowedTopicChar = true
  | .var k => k ∈ varNames

/-- The head of the template is not a slash (a literal first piece must
not start with `/`; a placeholder first piece starts with `{`). -/
def FirstTokOK : List TTok → Prop
  | .lit s :: _ => s.data.head? ≠ some '/'
  | _ => True

theorem allowed_not_brace {c : Char} (h : allowedTopicChar c = true) :
    (c != '{' && c != '}') = true := by
  by_cases h1 : c = '{'
  · subst h1
    exact absurd h (by decide)
  · by_cases h2 : c = '}'
    · subst h2
      exact absurd h (by decide)
    · simp [h1, h2]

theorem braceFree_of_allowed {l : List Char}
    (h : ∀ c ∈ l, allowedTopicChar c = true) : braceFree l = true :=
  List.all_eq_true.mpr fun c hc => allowed_not_brace (h c hc)

theorem data_ne_nil_of_ne_empty {s : String} (h : s ≠ "") : s.data ≠ [] :=
  fun h0 => h (String.ext h0)

theorem goodVal_parts {s : String} (h : goodVal s = true) :
    s.data ≠ [] ∧ (∀ c ∈ s.data, allowedTopicChar c = true) ∧
      (∀ c ∈ s.data, c ≠ '/') := by
  obtain ⟨h1, h2⟩ := Bool.and_eq_true_iff.mp h
  refine ⟨data_ne_nil_of_ne_empty (by simpa using h1), ?_, ?_⟩
  · intro c hc
    exact (Bool.and_eq_true_iff.mp (List.all_eq_true.mp h2 c hc)).1
  · intro c hc
    simpa using (Bool.and_eq_true_iff.mp (List.all_eq_true.mp h2 c hc)).2

theorem hds_false_of_no_slash {l : List Char} (h : ∀ c ∈ l, c ≠ '/') :
    hasDoubleSlash l = false := by
  induction l with
  | nil => rfl
  | cons x tail ih =>
    refine hds_cons_false.mpr ⟨?_, ih fun c hc => h c (List.mem_cons_of_mem _ hc)⟩
    rintro ⟨rfl, -⟩
    exact h '/' (List.mem_cons_self _ _) rfl

theorem goodVal_partsOK {s : String} (h : goodVal s = true) : PartsOK s.data := by
  obtain ⟨h1, h2, h3⟩ := goodVal_parts h
  refine ⟨h1, h2, ?_, ?_, hds_false_of_no_slash h3⟩
  · intro hh
    exact h3 '/' (List.mem_of_mem_head? (by simp [hh])) rfl
  · intro hh
    exact h3 '/' (List.mem_of_mem_getLast? (by simp [hh])) rfl

theorem varNames_braceFree : ∀ k ∈ varNames, braceFree k.data = true := by decide

theorem TemplTokOK_wf {t : TTok} (h : TemplTokOK t) : TokWF t := by
  cases t with
  | lit s => exact braceFree_of_allowed (fun c hc => List.all_eq_true.mp h.2 c hc)
  | var k => exact varNames_braceFree k h

theorem varAssoc_keys (v : TopicVars) : (varAssoc v).map Prod.fst = varNames := rfl

theorem varAssoc_keys_braceFree (v : TopicVars) :
    ∀ kv ∈ varAssoc v, braceFree kv.1.data = true := by
  intro kv h
  refine varNames_braceFree kv.1 ?_
  rw [← varAssoc_keys v]
  exact List.mem_map_of_mem Prod.fst h

theorem lookup_found_of_mem_keys {α : Type} {l : List (String × α)} {k : String}
    (h : k ∈ l.map Prod.fst) : ∃ w, l.lookup k = some w := by
  induction l with
  | nil => simp at h
  | cons p l ih =>
    obtain ⟨k1, w1⟩ := p
    by_cases hk : k = k1
    · subst hk
      exact ⟨w1, by simp [List.lookup]⟩
    · have hbeq : (k == k1) = false := by simpa using hk
      rw [List.map_cons] at h
      rcases List.mem_cons.mp h with h1 | h1
      · exact absurd h1 hk
      · obtain ⟨w, hw⟩ := ih h1
        exact ⟨w, by simp [List.lookup, hbeq, hw]⟩

theorem varAssoc_lookup_found {v : TopicVars} {k : String} (hk : k ∈ varNames) :
    ∃ w, (varAssoc v).lookup k = some w := by
  refine lookup_found_of_mem_keys ?_
  rw [varAssoc_keys v]
  exact hk

theorem varAssoc_lookup_val {v : TopicVars} {k : String} {w : String}
    (hvals : ∀ kv ∈ varAssoc v, goodVal kv.2 = true)
    (h : (varAssoc v).lookup k = some w) : goodVal w = true :=
  hvals (k, w) (lookup_mem h)

/-- A resolved token of a wellformed template is nonempty, charset-clean
and (for placeholder tokens) slash-free. -/
theorem resolveTok_facts {v : TopicVars} {t : TTok}
    (hvals : ∀ kv ∈ varAssoc v, goodVal kv.2 = true)
    (ht : TemplTokOK t) :
    resolveTok (varAssoc v) t ≠ [] ∧
    (∀ c ∈ resolveTok (varAssoc v) t, allowedTopicChar c = true) := by
  cases t with
  | lit s =>
    exact ⟨data_ne_nil_of_ne_empty ht.1,
      fun c hc => List.all_eq_true.mp ht.2 c hc⟩
  | var k =>
    obtain ⟨w, hw⟩ := varAssoc_lookup_found (v := v) ht
    have hgw := varAssoc_lookup_val hvals hw
    obtain ⟨w1, w2, -⟩ := goodVal_parts hgw
    simp only [resolveTok, hw]
    exact ⟨w1, w2⟩

theorem resolveTok_var_no_slash {v : TopicVars} {k : String}
    (hvals : ∀ kv ∈ varAssoc v, goodVal kv.2 = true) (hk : k ∈ varNames) :
    ∀ c ∈ resolveTok (varAssoc v) (.var k), c ≠ '/' := by
  obtain ⟨w, hw⟩ := varAssoc_lookup_found (v := v) hk
  have hgw := varAssoc_lookup_val hvals hw
  simp only [resolveTok, hw]
  exact (goodVal_parts hgw).2.2

theorem concatResolved_chars {v : TopicVars} {toks : List TTok}
    (hvals : ∀ kv ∈ varAssoc v, goodVal kv.2 = true)
    (htoks : ∀ t ∈ toks, TemplTokOK t) :
    ∀ c ∈ concatResolved (varAssoc v) toks, allowedTopicChar c = true := by
  induction toks with
  | nil => simp [concatResolved]
  | cons t ts ih =>
    intro c hc
    rcases List.mem_append.mp hc with hc | hc
    · exact (resolveTok_facts hvals (htoks t (List.mem_cons_self _ _))).2 c hc
    · exact ih (fun t' ht' => htoks t' (List.mem_cons_of_mem _ ht')) c hc

theorem concatResolved_ne_nil {v : TopicVars} {t0 : TTok} {ts : List TTok}
    (hvals : ∀ kv ∈ varAssoc v, goodVal kv.2 = true)
    (ht0 : TemplTokOK t0) :
    concatResolved (varAssoc v) (t0 :: ts) ≠ [] := by
  have h := (resolveTok_facts hvals ht0).1
  simp only [concatResolved]
  intro h0
  exact h (List.append_eq_nil.mp h0).1

theorem concatResolved_head_ok {v : TopicVars} {t0 : TTok} {ts : List TTok}
    (hvals : ∀ kv ∈ varAssoc v, goodVal kv.2 = true)
    (ht0 : TemplTokOK t0) (hfirst : FirstTokOK (t0 :: ts)) :
    (concatResolved (varAssoc v) (t0 :: ts)).head? ≠ some '/' := by
  have hne := (resolveTok_facts hvals ht0).1
  have hh : (concatResolved (varAssoc v) (t0 :: ts)).head? =
      (resolveTok (varAssoc v) t0).head? := by
    simp only [concatResolved]
    exact List.head?_append_of_ne_nil _ hne
  rw [hh]
  cases t0 with
  | lit s => exact hfirst
  | var k =>
    intro hh2
    exact resolveTok_var_no_slash hvals ht0 '/'
      (List.mem_of_mem_head? (by simp [hh2])) rfl

/-! `template.replace('{dataType}', dataType)` rewrites the first
`{dataType}` token (if any); after substitution the result coincides with
the base topic because `variables.dataType` is the same value. -/

/-- Effect of replacing the first `{k}` occurrence on the token list. -/
def rfToks (k v : String) : List TTok → List TTok
  | [] => []
  | .lit s :: ts => .lit s :: rfToks k v ts
  | .var j :: ts => if j = k then .lit v :: ts else .var j :: rfToks k v ts

theorem replaceFirstL_cons_neg {pat : List Char} (repl : List Char) {c : Char}
    {rest : List Char}
    (h : ¬ (pat ≠ [] ∧ pat.isPrefixOf (c :: rest) = true)) :
    replaceFirstL pat repl (c :: rest) = c :: replaceFirstL pat repl rest := by
  simp only [replaceFirstL]
  rw [if_neg h]

theorem replaceFirstL_at_match {pat repl b : List Char} (hne : pat ≠ []) :
    replaceFirstL pat repl (pat ++ b) = repl ++ b := by
  obtain ⟨c, pat', rfl⟩ : ∃ c pat', pat = c :: pat' := by
    cases pat with
    | nil => exact absurd rfl hne
    | cons c p => exact ⟨c, p, rfl⟩
  rw [List.cons_append]
  simp only [replaceFirstL]
  rw [if_pos ⟨hne, List.isPrefixOf_iff_prefix.mpr ⟨b, by simp⟩⟩]
  congr 1
  have hcb : c :: (pat' ++ b) = (c :: pat') ++ b := rfl
  rw [hcb, List.drop_left]

theorem replaceFirstL_append_no_open {pat repl a b : List Char}
    (hpat : pat.head? = some '{') (ha : '{' ∉ a) :
    replaceFirstL pat repl (a ++ b) = a ++ replaceFirstL pat repl b := by
  induction a with
  | nil => simp
  | cons c a ih =>
    have hc : c ≠ '{' := fun h => ha (h ▸ List.mem_cons_self c a)
    rw [List.cons_append, replaceFirstL_cons_neg]
    · rw [ih (fun h => ha (List.mem_cons_of_mem c h))]
      rfl
    · rintro ⟨hne, hpre⟩
      obtain ⟨p, pat', rfl⟩ : ∃ p pat', pat = p :: pat' := by
        cases pat with
        | nil => exact absurd rfl hne
        | cons p ps => exact ⟨p, ps, rfl⟩
      have hp : p = '{' := by simpa using hpat
      simp only [List.isPrefixOf, Bool.and_eq_true, beq_iff_eq] at hpre
      exact hc (hpre.1 ▸ hp)

theorem replaceFirst_concatToks (k v : String) (toks : List TTok)
    (hk : braceFree k.data = true) (htoks : ∀ t ∈ toks, TokWF t) :
    replaceFirstL (mkPlaceholder k) v.data (concatToks toks) =
      concatToks (rfToks k v toks) := by
  induction toks with
  | nil => rfl
  | cons t ts ih =>
    have hts : ∀ t' ∈ ts, TokWF t' := fun t' ht' => htoks t' (List.mem_cons_of_mem _ ht')
    have iht := ih hts
    cases t with
    | lit s =>
      have hs : braceFree s.data = true := htoks (.lit s) (List.mem_cons_self _ _)
      simp only [concatToks, tokChars, rfToks]
      rw [replaceFirstL_append_no_open (by simp [mkPlaceholder]) (braceFree_no_open hs), iht]
    | var j =>
      have hjwf : braceFree j.data = true := htoks (.var j) (List.mem_cons_self _ _)
      by_cases hjk : j = k
      · subst hjk
        simp only [concatToks, tokChars, rfToks, if_pos rfl]
        rw [replaceFirstL_at_match (by simp [mkPlaceholder])]
      · simp only [concatToks, tokChars, rfToks, if_neg hjk]
        have hassoc : mkPlaceholder j ++ concatToks ts =
            '{' :: ((j.data ++ ['}']) ++ concatToks ts) := by
          simp [mkPlaceholder]
        rw [hassoc, replaceFirstL_cons_neg]
        · rw [replaceFirstL_append_no_open (by simp [mkPlaceholder])]
          · rw [iht]
            simp [mkPlaceholder]
          · intro hm
            rcases List.mem_append.mp hm with hm | hm
            · exact braceFree_no_open hjwf hm
            · simp at hm
        · rintro ⟨-, hpre⟩
          refine placeholder_no_match hjk hk hjwf (concatToks ts) ?_
          simpa [mkPlaceholder] using hpre

theorem rfToks_TemplTokOK {k v : String} (hv : TemplTokOK (.lit v))
    {toks : List TTok} (htoks : ∀ t ∈ toks, TemplTokOK t) :
    ∀ t ∈ rfToks k v toks, TemplTokOK t := by
  induction toks with
  | nil => simp [rfToks]
  | cons t ts ih =>
    have hts : ∀ t' ∈ ts, TemplTokOK t' :=
      fun t' ht' => htoks t' (List.mem_cons_of_mem _ ht')
    cases t with
    | lit s =>
      intro t' ht'
      rcases List.mem_cons.mp ht' with rfl | ht'
      · exact htoks _ (List.mem_cons_self _ _)
      · exact ih hts t' ht'
    | var j =>
      by_cases hjk : j = k
      · simp only [rfToks, if_pos hjk]
        intro t' ht'
        rcases List.mem_cons.mp ht' with rfl | ht'
        · exact hv
        · exact hts t' ht'
      · simp only [rfToks, if_neg hjk]
        intro t' ht'
        rcases List.mem_cons.mp ht' with rfl | ht'
        · exact htoks _ (List.mem_cons_self _ _)
        · exact ih hts t' ht'

theorem rfToks_FirstTokOK {k v : String} (hv : v.data.head? ≠ some '/')
    {toks : List TTok} (hfirst : FirstTokOK toks) :
    FirstTokOK (rfToks k v toks) := by
  cases toks with
  | nil => trivial
  | cons t ts =>
    cases t with
    | lit s => exact hfirst
    | var j =>
      by_cases hjk : j = k
      · simpa only [rfToks, if_pos hjk, FirstTokOK] using hv
      · simp only [rfToks, if_neg hjk, FirstTokOK]

theorem rfToks_ne_nil {k v : String} {toks : List TTok} (h : toks ≠ []) :
    rfToks k v toks ≠ [] := by
  cases toks with
  | nil => exact absurd rfl h
  | cons t ts =>
    cases t with
    | lit s => simp [rfToks]
    | var j =>
      by_cases hjk : j = k <;> simp [rfToks, hjk]

theorem concatResolved_rfToks {v' : TopicVars} {k w : String}
    (hkv : (varAssoc v').lookup k = some w) (toks : List TTok) :
    concatResolved (varAssoc v') (rfToks k w toks) =
      concatResolved (varAssoc v') toks := by
  induction toks with
  | nil => rfl
  | cons t ts ih =>
    cases t with
    | lit s => simp only [rfToks, concatResolved, ih]
    | var j =>
      by_cases hjk : j = k
      · subst hjk
        simp only [rfToks, if_pos rfl, concatResolved, resolveTok, hkv]
      · simp only [rfToks, if_neg hjk, concatResolved, ih]

/-! String-level join facts for assembling the concrete topic shapes. -/

theorem data_join (x y : String) : (x ++ "/" ++ y).data = x.data ++ '/' :: y.data := by
  rw [String.data_append, String.data_append]
  have h0 : ("/" : String).data = ['/'] := rfl
  rw [h0]
  simp

theorem PartsOK.joinStr {x y : String} (hx : PartsOK x.data) (hy : PartsOK y.data) :
    PartsOK (x ++ "/" ++ y).data := by
  rw [data_join]
  exact hx.join hy

theorem len_join (x y : String) :
    (x ++ "/" ++ y).data.length = x.data.length + 1 + y.data.length := by
  rw [data_join]
  simp
  omega

theorem valid_joinStr {x y : String} (hx : PartsOK x.data) (hy : PartsOK y.data)
    (hlen : x.data.length + 1 + y.data.length ≤ 256) :
    (validateTopicStructure (x ++ "/" ++ y)).valid = true := by
  have h := valid_of_partsOK (hx.joinStr hy) (by rw [len_join]; exact hlen)
  have hxy : (⟨(x ++ "/" ++ y).data⟩ : String) = x ++ "/" ++ y := String.ext rfl
  rwa [hxy] at h

theorem ne_empty_of_goodVal {s : String} (h : goodVal s = true) : s ≠ "" := by
  intro h0
  exact (goodVal_parts h).1 (by rw [h0])

theorem append_lit_slash (x sfx w : String) (h : sfx.data = '/' :: w.data) :
    x ++ sfx = x ++ "/" ++ w := by
  apply String.ext
  simp only [String.data_append, h]
  simp

/-- Validity of `uns/enterprise/<e>/equipment/<id>`. -/
theorem enterprise_topic_valid {e id : String} (he : goodVal e = true)
    (hid : goodVal id = true)
    (hel : e.data.length ≤ 100) (hidl : id.data.length ≤ 100) :
    (validateTopicStructure ("uns/enterprise/" ++ e ++ "/equipment/" ++ id)).valid
      = true := by
  have hshape : "uns/enterprise/" ++ e ++ "/equipment/" ++ id =
      (("uns/enterprise" ++ "/" ++ e) ++ "/" ++ "equipment") ++ "/" ++ id := by
    apply String.ext
    simp only [String.data_append]
    simp
  rw [hshape]
  have p0 : PartsOK ("uns/enterprise" : String).data :=
    ⟨by decide, by decide, by decide, by decide, by decide⟩
  have pq : PartsOK ("equipment" : String).data :=
    ⟨by decide, by decide, by decide, by decide, by decide⟩
  refine valid_joinStr ((p0.joinStr (goodVal_partsOK he)).joinStr pq)
    (goodVal_partsOK hid) ?_
  rw [len_join, len_join]
  have e1 : ("uns/enterprise" : String).data.length = 14 := rfl
  have e2 : ("equipment" : String).data.length = 9 := rfl
  omega

/-- Validity of the default base-status topic
`uns/<area>/<workUnit>/equipment/status`. -/
theorem default_status_topic_valid {a w : String} (ha : goodVal a = true)
    (hw : goodVal w = true)
    (hal : a.data.length ≤ 100) (hwl : w.data.length ≤ 100) :
    (validateTopicStructure
      ("uns/" ++ a ++ "/" ++ w ++ "/equipment/status")).valid = true := by
  have hshape : "uns/" ++ a ++ "/" ++ w ++ "/equipment/status" =
      (("uns" ++ "/" ++ a) ++ "/" ++ w) ++ "/" ++ "equipment/status" := by
    apply String.ext
    simp only [String.data_append]
    simp
  rw [hshape]
  have p0 : PartsOK ("uns" : String).data :=
    ⟨by decide, by decide, by decide, by decide, by decide⟩
  have pq : PartsOK ("equipment/status" : String).data :=
    ⟨by decide, by decide, by decide, by decide, by decide⟩
  refine valid_joinStr (((p0.joinStr (goodVal_partsOK ha)).joinStr
    (goodVal_partsOK hw))) pq ?_
  rw [len_join, len_join]
  have e1 : ("uns" : String).data.length = 3 := rfl
  have e2 : ("equipment/status" : String).data.length = 16 := rfl
  omega

theorem metric_suffix_valid {base sfx : String} (hb : PartsOK base.data)
    (hlen : base.data.length ≤ 237) (w : String) (hsfx : sfx.data = '/' :: w.data)
    (hw : PartsOK w.data) (hwlen : w.data.length ≤ 18) :
    (validateTopicStructure (base ++ sfx)).valid = true := by
  rw [append_lit_slash _ _ _ hsfx]
  exact valid_joinStr hb hw (by omega)

/-- The five dataType classifications a transformed document can carry. -/
def dataTypeVals : List String :=
  ["equipment", "process", "quality", "maintenance", "energy"]

/-- C3 amended: every topic of every RouteSet passes
`validateTopicStructure`, provided (a) all eleven substitution values are
nonempty, slash-free, charset-clean and of length at most 100, (b) the
document's dataType is one of the five classifications, and (c) any
configured template decomposes into nonempty charset-clean literal
pieces and known placeholders, does not start with `/`, and resolves to
at most 237 characters before cleanup. -/
theorem generateTopics_all_valid
    (templates : List (String × String)) (formatName : String)
    (d : TopicDoc) (es : Option HStructure)
    (hvals : ∀ kv ∈ varAssoc (extractVariables d es), goodVal kv.2 = true)
    (hvlen : ∀ kv ∈ varAssoc (extractVariables d es), kv.2.data.length ≤ 100)
    (hdt : strOr d.dataType "equipment" ∈ dataTypeVals)
    (htempl : ∀ template, templates.lookup formatName = some template →
      ∃ toks : List TTok, template.data = concatToks toks ∧ toks ≠ [] ∧
        (∀ t ∈ toks, TemplTokOK t) ∧ FirstTokOK toks ∧
        (concatResolved (varAssoc (extractVariables d es)) toks).length ≤ 237) :
    ∀ r ∈ generateTopics templates formatName d es,
      (validateTopicStructure r.topic).valid = true := by
  intro r hr
  have hid : getEquipmentId d ≠ "" := getEquipmentId_ne_empty d
  have hideq : (extractVariables d es).equipmentId = getEquipmentId d := by
    show strOr (some (getEquipmentId d)) "unknown" = getEquipmentId d
    exact strOr_some_of_ne hid _
  have hgid : goodVal (getEquipmentId d) = true := by
    have := hvals ("equipmentId", (extractVariables d es).equipmentId) (by simp [varAssoc])
    rwa [hideq] at this
  have hlid : (getEquipmentId d).data.length ≤ 100 := by
    have := hvlen ("equipmentId", (extractVariables d es).equipmentId) (by simp [varAssoc])
    rwa [hideq] at this
  have hgent : goodVal (extractVariables d es).enterprise = true :=
    hvals ("enterprise", (extractVariables d es).enterprise) (by simp [varAssoc])
  have hlent : (extractVariables d es).enterprise.data.length ≤ 100 :=
    hvlen ("enterprise", (extractVariables d es).enterprise) (by simp [varAssoc])
  have hgdtv : goodVal (strOr d.dataType "equipment") = true := by
    have := hvals ("dataType", (extractVariables d es).dataType) (by simp [varAssoc])
    exact this
  have hdtparts : PartsOK (strOr d.dataType "equipment").data ∧
      (strOr d.dataType "equipment").data.length ≤ 18 := by
    have hdt' : strOr d.dataType "equipment" = "equipment" ∨
        strOr d.dataType "equipment" = "process" ∨
        strOr d.dataType "equipment" = "quality" ∨
        strOr d.dataType "equipment" = "maintenance" ∨
        strOr d.dataType "equipment" = "energy" := by
      simpa [dataTypeVals] using hdt
    rcases hdt' with h | h | h | h | h <;> rw [h] <;>
      exact ⟨⟨by decide, by decide, by decide, by decide, by decide⟩, by decide⟩
  rcases hlook : templates.lookup formatName with _ | template
  · -- default-topics branch
    simp only [generateTopics, hlook, generateDefaultTopics] at hr
    have harea : goodVal (strOr (es.bind HStructure.area) "general") = true :=
      hvals ("area", (extractVariables d es).area) (by simp [varAssoc])
    have hlarea : (strOr (es.bind HStructure.area) "general").data.length ≤ 100 :=
      hvlen ("area", (extractVariables d es).area) (by simp [varAssoc])
    have hwukey : (extractVariables d es).workUnit =
        strOr (es.bind HStructure.workUnit) (getEquipmentId d) := by
      show strOr (es.bind HStructure.workUnit)
          (strOr (some (getEquipmentId d)) "unknown") = _
      rw [strOr_some_of_ne hid]
    have hwu : goodVal (strOr (es.bind HStructure.workUnit) (getEquipmentId d)) = true := by
      have := hvals ("workUnit", (extractVariables d es).workUnit) (by simp [varAssoc])
      rwa [hwukey] at this
    have hlwu : (strOr (es.bind HStructure.workUnit) (getEquipmentId d)).data.length ≤ 100 := by
      have := hvlen ("workUnit", (extractVariables d es).workUnit) (by simp [varAssoc])
      rwa [hwukey] at this
    rcases List.mem_cons.mp hr with rfl | hr
    · exact default_status_topic_valid harea hwu hlarea hlwu
    · rcases List.mem_cons.mp hr with rfl | hr
      · show (validateTopicStructure ("uns/enterprise/equipment/" ++ getEquipmentId d)).valid = true
        have hshape : "uns/enterprise/equipment/" ++ getEquipmentId d =
            "uns/enterprise/equipment" ++ "/" ++ getEquipmentId d := by
          apply String.ext
          simp only [String.data_append]
          simp
        rw [hshape]
        refine valid_joinStr ⟨by decide, by decide, by decide, by decide, by decide⟩
          (goodVal_partsOK hgid) ?_
        have e1 : ("uns/enterprise/equipment" : String).data.length = 24 := rfl
        omega
      · simp at hr
  · -- template branch
    obtain ⟨toks, hdecomp, htne, htok, hfirst, hslen⟩ := htempl template hlook
    obtain ⟨t0, ts, rfl⟩ : ∃ t0 ts, toks = t0 :: ts := by
      cases toks with
      | nil => exact absurd rfl htne
      | cons t0 ts => exact ⟨t0, ts, rfl⟩
    have hkvs : ∀ kv ∈ varAssoc (extractVariables d es),
        braceFree kv.1.data = true ∧ braceFree kv.2.data = true := by
      intro kv hkv
      exact ⟨varAssoc_keys_braceFree _ kv hkv,
        braceFree_of_allowed (goodVal_parts (hvals kv hkv)).2.1⟩
    have htokwf : ∀ t ∈ t0 :: ts, TokWF t := fun t ht => TemplTokOK_wf (htok t ht)
    have hbase : substituteVariables template (extractVariables d es) =
        ⟨dropTrailingSlash (collapseSlashes
          (concatResolved (varAssoc (extractVariables d es)) (t0 :: ts)))⟩ := by
      unfold substituteVariables
      rw [hdecomp, substAll_concatToks _ _ hkvs htokwf]
    have hSne : concatResolved (varAssoc (extractVariables d es)) (t0 :: ts) ≠ [] :=
      concatResolved_ne_nil hvals (htok t0 (List.mem_cons_self _ _))
    have hShead := concatResolved_head_ok hvals (htok t0 (List.mem_cons_self _ _)) hfirst
    have hSchars := concatResolved_chars hvals htok
    obtain ⟨hBparts, hBlen⟩ := cleanup_partsOK hSne hShead hSchars
    have hBlen237 : (dropTrailingSlash (collapseSlashes
        (concatResolved (varAssoc (extractVariables d es)) (t0 :: ts)))).length ≤ 237 :=
      le_trans hBlen hslen
    have hbasedata : (substituteVariables template (extractVariables d es)).data =
        dropTrailingSlash (collapseSlashes
          (concatResolved (varAssoc (extractVariables d es)) (t0 :: ts))) := by
      rw [hbase]
    have hbasevalid :
        (validateTopicStructure (substituteVariables template (extractVariables d es))).valid
          = true := by
      rw [hbase]
      exact valid_of_partsOK hBparts (by omega)
    have hbaseparts : PartsOK (substituteVariables template (extractVariables d es)).data := by
      rw [hbasedata]
      exact hBparts
    simp only [generateTopics, hlook, generateTopicsFromTemplate] at hr
    rcases List.mem_append.mp hr with hr1 | hrent
    · rcases List.mem_append.mp hr1 with hr2 | hrmet
      · rcases List.mem_append.mp hr2 with hrbase | hrtyped
        · obtain rfl : r = Route.mk
              (substituteVariables template (extractVariables d es)) 1 := by
            simpa using hrbase
          exact hbasevalid
        · split at hrtyped
          · -- template contains {dataType}: the typed topic equals the base
            obtain rfl : r = Route.mk (substituteVariables
                ⟨replaceFirstL (mkPlaceholder "dataType")
                  (strOr d.dataType "equipment").data template.data⟩
                (extractVariables d es)) 1 := by
              simpa using hrtyped
            have hlookdt : (varAssoc (extractVariables d es)).lookup "dataType" =
                some (extractVariables d es).dataType := rfl
            have hdtfield : (extractVariables d es).dataType =
                strOr d.dataType "equipment" := rfl
            have hdtlit : TemplTokOK (.lit (strOr d.dataType "equipment")) := by
              refine ⟨ne_empty_of_goodVal hgdtv, List.all_eq_true.mpr fun c hc => ?_⟩
              exact (goodVal_parts hgdtv).2.1 c hc
            have hrw : (⟨replaceFirstL (mkPlaceholder "dataType")
                (strOr d.dataType "equipment").data template.data⟩ : String).data =
                concatToks (rfToks "dataType" (strOr d.dataType "equipment") (t0 :: ts)) := by
              show replaceFirstL (mkPlaceholder "dataType")
                (strOr d.dataType "equipment").data template.data = _
              rw [hdecomp]
              exact replaceFirst_concatToks _ _ _ (by decide) htokwf
            show (validateTopicStructure (substituteVariables _ _)).valid = true
            unfold substituteVariables
            rw [hrw, substAll_concatToks _ _ hkvs
              (fun t ht => TemplTokOK_wf (rfToks_TemplTokOK hdtlit htok t ht)),
              concatResolved_rfToks (by rw [hlookdt, hdtfield]) (t0 :: ts)]
            exact valid_of_partsOK hBparts (by omega)
          · -- no {dataType} in template: base ++ "/" ++ dataType
            obtain rfl : r = Route.mk (substituteVariables template
                (extractVariables d es) ++ "/" ++ strOr d.dataType "equipment") 1 := by
              simpa using hrtyped
            refine valid_joinStr hbaseparts hdtparts.1 ?_
            have := hdtparts.2
            rw [hbasedata]
            omega
      · -- metric sub-topic
        have hbl : (substituteVariables template (extractVariables d es)).data.length ≤ 237 := by
          rw [hbasedata]
          omega
        split at hrmet
        · split at hrmet
          · obtain rfl : r = Route.mk (substituteVariables template
                (extractVariables d es) ++ "/process/parameters") 1 := by
              simpa using hrmet
            exact metric_suffix_valid hbaseparts hbl "process/parameters" rfl
              ⟨by decide, by decide, by decide, by decide, by decide⟩ (by decide)
          · simp at hrmet
        · split at hrmet
          · split at hrmet
            · obtain rfl : r = Route.mk (substituteVariables template
                  (extractVariables d es) ++ "/quality/metrics") 1 := by
                simpa using hrmet
              exact metric_suffix_valid hbaseparts hbl "quality/metrics" rfl
                ⟨by decide, by decide, by decide, by decide, by decide⟩ (by decide)
            · simp at hrmet
          · split at hrmet
            · split at hrmet
              · obtain rfl : r = Route.mk (substituteVariables template
                    (extractVariables d es) ++ "/maintenance/status") 1 := by
                  simpa using hrmet
                exact metric_suffix_valid hbaseparts hbl "maintenance/status" rfl
                  ⟨by decide, by decide, by decide, by decide, by decide⟩ (by decide)
              · simp at hrmet
            · split at hrmet
              · split at hrmet
                · obtain rfl : r = Route.mk (substituteVariables template
                      (extractVariables d es) ++ "/energy/metrics") 1 := by
                    simpa using hrmet
                  exact metric_suffix_valid hbaseparts hbl "energy/metrics" rfl
                    ⟨by decide, by decide, by decide, by decide, by decide⟩ (by decide)
                · simp at hrmet
              · simp at hrmet
    · -- enterprise-wide topic
      rw [if_pos hid] at hrent
      obtain rfl : r = Route.mk (generateEnterpriseEquipmentTopic
          (getEquipmentId d) (extractVariables d es)) 1 := by
        simpa using hrent
      show (validateTopicStructure (generateEnterpriseEquipmentTopic _ _)).valid = true
      unfold generateEnterpriseEquipmentTopic
      rw [strOr_some_of_ne (ne_empty_of_goodVal hgent)]
      exact enterprise_topic_valid hgent hgid hlent hlid

/-- C3 counterexample: the template `uns/{foo}` carries an unknown
placeholder; substitution leaves the braces in the generated base topic,
which fails validation on its character set. -/
theorem generateTopics_unknown_placeholder_counterexample :
    Route.mk "uns/{foo}" 1 ∈ generateTopics [("f", "uns/{foo}")] "f" docEmptyC4 none ∧
    (validateTopicStructure "uns/{foo}").valid = false := by
  have hkvs : ∀ kv ∈ varAssoc (extractVariables docEmptyC4 none),
      braceFree kv.1.data = true ∧ braceFree kv.2.data = true := by decide
  have htokwf : ∀ t ∈ [TTok.lit "uns/", TTok.var "foo"], TokWF t := by
    intro t ht
    rcases List.mem_cons.mp ht with rfl | ht
    · show braceFree ("uns/" : String).data = true
      decide
    · rcases List.mem_cons.mp ht with rfl | ht
      · show braceFree ("foo" : String).data = true
        decide
      · simp at ht
  have hdecomp : ("uns/{foo}" : String).data =
      concatToks [TTok.lit "uns/", TTok.var "foo"] := rfl
  have hbase : substituteVariables "uns/{foo}" (extractVariables docEmptyC4 none) =
      "uns/{foo}" := by
    unfold substituteVariables
    rw [hdecomp, substAll_concatToks _ _ hkvs htokwf]
    decide
  constructor
  · show Route.mk "uns/{foo}" 1 ∈ generateTopicsFromTemplate "uns/{foo}" docEmptyC4 none
    simp only [generateTopicsFromTemplate]
    refine List.mem_append.mpr (Or.inl (List.mem_append.mpr (Or.inl
      (List.mem_append.mpr (Or.inl ?_)))))
    rw [hbase]
    simp
  · decide

/-- The token decomposition of the end-to-end scenario's template. -/
def toksT : List TTok :=
  [.lit "uns/", .var "enterprise", .lit "/", .var "site", .lit "/", .var "area",
   .lit "/", .var "workUnit", .lit "/", .var "equipment", .lit "/", .var "dataType"]

theorem generateTopics_all_valid_witness :
    (validateTopicStructure
      "uns/ACME_Manufacturing/Detroit_Plant_01/PRODUCTION/Assembly_Line_1/LINE1_STATION3_PLC/process").valid
      = true := by
  have hkvs : ∀ kv ∈ varAssoc (extractVariables docT (some esT)),
      braceFree kv.1.data = true ∧ braceFree kv.2.data = true := by decide
  have htokwf : ∀ t ∈ toksT, TokWF t := by
    intro t ht
    simp only [toksT, List.mem_cons, List.not_mem_nil, or_false] at ht
    rcases ht with rfl|rfl|rfl|rfl|rfl|rfl|rfl|rfl|rfl|rfl|rfl|rfl <;>
      · show braceFree _ = true
        decide
  have htempl : ∀ template,
      ([("isa95-part2", tmplT)]).lookup "isa95-part2" = some template →
      ∃ toks : List TTok, template.data = concatToks toks ∧ toks ≠ [] ∧
        (∀ t ∈ toks, TemplTokOK t) ∧ FirstTokOK toks ∧
        (concatResolved (varAssoc (extractVariables docT (some esT))) toks).length ≤ 237 := by
    intro template h
    obtain rfl : tmplT = template := by simpa using h
    refine ⟨toksT, rfl, by simp [toksT], ?_, ?_, by decide⟩
    · intro t ht
      simp only [toksT, List.mem_cons, List.not_mem_nil, or_false] at ht
      rcases ht with rfl|rfl|rfl|rfl|rfl|rfl|rfl|rfl|rfl|rfl|rfl|rfl <;>
        first
        | exact ⟨by decide, by decide⟩
        | exact show _ ∈ varNames by decide
    · show ("uns/" : String).data.head? ≠ some '/'
      decide
  have hv := generateTopics_all_valid [("isa95-part2", tmplT)] "isa95-part2" docT
    (some esT) (by decide) (by decide) (by decide) htempl
  have hbase : substituteVariables tmplT (extractVariables docT (some esT)) =
      "uns/ACME_Manufacturing/Detroit_Plant_01/PRODUCTION/Assembly_Line_1/LINE1_STATION3_PLC/process" := by
    unfold substituteVariables
    rw [show (tmplT).data = concatToks toksT from rfl,
      substAll_concatToks _ _ hkvs htokwf]
    decide
  refine hv (Route.mk
    "uns/ACME_Manufacturing/Detroit_Plant_01/PRODUCTION/Assembly_Line_1/LINE1_STATION3_PLC/process" 1) ?_
  show _ ∈ generateTopicsFromTemplate tmplT docT (some esT)
  simp only [generateTopicsFromTemplate]
  refine List.mem_append.mpr (Or.inl (List.mem_append.mpr (Or.inl
    (List.mem_append.mpr (Or.inl ?_)))))
  rw [hbase]
  simp

end UNS
